import Mathlib

/-!
# MCP tool registry and RPC dispatch (`main/mcp_server.cc`)

A shallow embedding of `McpServer`: the tool registry (`AddTool`,
`AddUserOnlyTool`), the message router (`ParseMessage`), the paginated tool
listing (`GetToolsList`) and the argument binder and scheduler hand-off
(`DoToolCall`).

Conventions of the embedding.

* The server object is the value `McpServer` (its only member is `tools_`).
  A method returns an `Outcome`: the server after the call, the replies handed
  to `Application::SendMcpMessage` in order, and the closures handed to
  `Application::Schedule` in order.
* A `cJSON*` is an `Option cJSON`; `none` is the null pointer.  A number node
  carries its `valueint` member, which is what the server reads.
* A C++ exception derived from `std::exception` is an `Except String`, the
  string being `e.what()`.
* `std::string::length` is `String.utf8ByteSize`.
-/

set_option autoImplicit false

namespace Mcp

/-! ## cJSON -/

/-- A parsed cJSON node.  `bool` holds `valueint == 1`, `number` holds `valueint`. -/
inductive cJSON where
  | null
  | bool (b : Bool)
  | number (valueint : Int)
  | string (valuestring : String)
  | array (child : List cJSON)
  | object (child : List (String × cJSON))

/-- The comparison `case_insensitive_strcmp(a, b) == 0` of cJSON: equal after `tolower`. -/
def case_insensitive_eq (a b : String) : Bool :=
  a.data.map Char.toLower == b.data.map Char.toLower

/-- The library call `cJSON_GetObjectItem`: the first member whose key equals `name`
ignoring case; the null pointer for a null pointer, for a node that is not an object and
when no member matches. -/
def cJSON_GetObjectItem (object : Option cJSON) (name : String) : Option cJSON :=
  match object with
  | some (cJSON.object child) =>
    (child.find? (fun kv => case_insensitive_eq name kv.1)).map (fun kv => kv.2)
  | _ => none

/-- The library call `cJSON_IsObject`. -/
def cJSON_IsObject : Option cJSON → Bool
  | some (cJSON.object _) => true
  | _ => false

/-- The library call `cJSON_IsBool`. -/
def cJSON_IsBool : Option cJSON → Bool
  | some (cJSON.bool _) => true
  | _ => false

/-- The library call `cJSON_IsNumber`. -/
def cJSON_IsNumber : Option cJSON → Bool
  | some (cJSON.number _) => true
  | _ => false

/-- The library call `cJSON_IsString`. -/
def cJSON_IsString : Option cJSON → Bool
  | some (cJSON.string _) => true
  | _ => false

/-! ## Properties and tools (declared in `mcp_server.h`) -/

/-- The enum `PropertyType`. -/
inductive PropertyType where
  | kPropertyTypeBoolean
  | kPropertyTypeInteger
  | kPropertyTypeString
  deriving DecidableEq, Repr

/-- The value a property stores: a boolean, an integer or a string. -/
inductive Value where
  | bool (b : Bool)
  | int (i : Int)
  | string (s : String)
  deriving DecidableEq, Repr

/-- Modelled from the spec: the class `Property` of `mcp_server.h`, which is not among the
sources.  The spec's record is `{name, type, default: optional(value), min: optional(number),
max: optional(number), current_value}`.  The optional default is kept the way `DoToolCall`
reads it, as the flag `has_default_value` next to the stored value: a property declared with
a default starts out with `value` equal to that default. -/
structure Property where
  name : String
  type : PropertyType
  value : Value
  has_default_value : Bool
  min_value : Option Int
  max_value : Option Int
  deriving DecidableEq, Repr

/-- An ordered sequence of properties (`PropertyList`). -/
abbrev PropertyList := List Property

/-- The declaration `Property(name, type)`: a mandatory property. -/
def Property.required (name : String) (type : PropertyType) : Property :=
  { name := name, type := type, value := Value.bool false, has_default_value := false,
    min_value := none, max_value := none }

/-- The declaration `Property(name, type, default_value)`. -/
def Property.optional (name : String) (type : PropertyType) (default_value : Value) : Property :=
  { name := name, type := type, value := default_value, has_default_value := true,
    min_value := none, max_value := none }

/-- The declaration `Property(name, kPropertyTypeInteger, min_value, max_value)`: a mandatory
bounded integer, as in `Property("volume", kPropertyTypeInteger, 0, 100)`. -/
def Property.ranged (name : String) (min_value max_value : Int) : Property :=
  { name := name, type := PropertyType.kPropertyTypeInteger, value := Value.bool false,
    has_default_value := false, min_value := some min_value, max_value := some max_value }

/-- The declaration `Property(name, kPropertyTypeInteger, default_value, min_value, max_value)`,
as in `Property("quality", kPropertyTypeInteger, 80, 1, 100)`. -/
def Property.rangedDefault (name : String) (default_value min_value max_value : Int) : Property :=
  { name := name, type := PropertyType.kPropertyTypeInteger, value := Value.int default_value,
    has_default_value := true, min_value := some min_value, max_value := some max_value }

/-- Whether `v` respects the declared bounds of `p` (a missing bound allows everything). -/
def Property.in_range (p : Property) (v : Int) : Bool :=
  (match p.min_value with
    | some lo => decide (lo ≤ v)
    | none => true) &&
  (match p.max_value with
    | some hi => decide (v ≤ hi)
    | none => true)

/-- The calls `set_value<bool>` and `set_value<std::string>`: plain assignment. -/
def Property.set_value (p : Property) (v : Value) : Property :=
  { p with value := v }

/-- Modelled from the spec: `Property::set_value<int>` of `mcp_server.h`, which is not among
the sources.  The spec says that a caller-assigned value violating the declared `[min, max]`
is "rejected, not clamped"; `DoToolCall` wraps the assignment in `try`/`catch
(const std::exception &)`, so rejection is the exception, and an accepted value is stored.
The spec does not word the exception's message: it is the parameter `what`. -/
def Property.set_value_int (what : Property → Int → String) (p : Property) (v : Int) :
    Except String Property :=
  if p.in_range v then Except.ok { p with value := Value.int v }
  else Except.error (what p v)

/-- The result of a tool handler (`ReturnValue`): a boolean, a text or a structured document. -/
inductive ReturnValue where
  | bool (b : Bool)
  | text (s : String)
  | structured (doc : cJSON)

/-- Modelled from the spec: the class `McpTool` of `mcp_server.h`, which is not among the
sources: `{name, description, schema, visibility, handler}`.  The handler either returns a
result or raises an error with a message. -/
structure McpTool where
  name : String
  description : String
  properties : PropertyList
  callback : PropertyList → Except String ReturnValue
  user_only : Bool

/-- The setter `set_user_only`. -/
def McpTool.set_user_only (tool : McpTool) (user_only : Bool) : McpTool :=
  { tool with user_only := user_only }

/-- The constructor `McpTool(name, description, properties, callback)`: a public tool. -/
def McpTool.new (name description : String) (properties : PropertyList)
    (callback : PropertyList → Except String ReturnValue) : McpTool :=
  { name := name, description := description, properties := properties,
    callback := callback, user_only := false }

/-! ## Server state and effects -/

/-- The server object: the registry `tools_`, in insertion order. -/
structure McpServer where
  tools_ : List McpTool

/-- A reply handed to the transport: `ReplyResult(id, result)` or `ReplyError(id, message)`. -/
inductive Reply where
  | result (id : Int) (result : String)
  | error (id : Int) (message : String)
  deriving DecidableEq, Repr

/-- The closure `DoToolCall` hands to `Application::Schedule`: it captures the request id, the
tool found in the registry and its own copy of the bound arguments. -/
structure WorkItem where
  id : Int
  tool : McpTool
  arguments : PropertyList

/-- What a method leaves behind: the server after the call, the replies sent, the closures
scheduled, and the `(url, token)` pairs handed to the vision collaborator. -/
structure Outcome where
  server : McpServer
  sent : List Reply
  scheduled : List WorkItem
  vision : List (String × String)

/-- A method that returns without any effect. -/
def Outcome.nothing (s : McpServer) : Outcome :=
  { server := s, sent := [], scheduled := [], vision := [] }

/-- A method whose only effect is one reply. -/
def Outcome.reply (s : McpServer) (r : Reply) : Outcome :=
  { server := s, sent := [r], scheduled := [], vision := [] }

/-- The text `ReplyResult` passes to `SendMcpMessage`. -/
def ReplyResult (id : Int) (result : String) : String :=
  "\x7b\"jsonrpc\":\"2.0\",\"id\":" ++ toString id ++ ",\"result\":" ++ result ++ "\x7d"

/-- The text `ReplyError` passes to `SendMcpMessage`. -/
def ReplyError (id : Int) (message : String) : String :=
  "\x7b\"jsonrpc\":\"2.0\",\"id\":" ++ toString id ++ ",\"error\":\x7b\"message\":\"" ++ message ++
    "\"\x7d\x7d"

/-- The text a reply puts on the wire. -/
def Reply.payload : Reply → String
  | Reply.result id body => ReplyResult id body
  | Reply.error id text => ReplyError id text

/-! ## Registry -/

/-- The overload `AddTool(McpTool *tool)`: refuse a tool whose name is already registered,
append otherwise. -/
def AddTool (s : McpServer) (tool : McpTool) : McpServer :=
  if s.tools_.any (fun t => t.name == tool.name) then s
  else { s with tools_ := s.tools_ ++ [tool] }

/-- The overload `AddTool(name, description, properties, callback)`. -/
def AddTool.named (s : McpServer) (name description : String) (properties : PropertyList)
    (callback : PropertyList → Except String ReturnValue) : McpServer :=
  AddTool s (McpTool.new name description properties callback)

/-- The method `AddUserOnlyTool(name, description, properties, callback)`. -/
def AddUserOnlyTool (s : McpServer) (name description : String) (properties : PropertyList)
    (callback : PropertyList → Except String ReturnValue) : McpServer :=
  AddTool s ((McpTool.new name description properties callback).set_user_only true)

/-- The lookup `std::find_if(tools_.begin(), tools_.end(), name == tool_name)`. -/
def find_tool (s : McpServer) (tool_name : String) : Option McpTool :=
  s.tools_.find? (fun tool => tool.name == tool_name)

/-! ## Parts supplied from outside `mcp_server.cc` -/

/-- What `mcp_server.cc` takes from declarations that are not among the sources: the
serializer `McpTool::to_json` and the result encoder `McpTool::Call` of `mcp_server.h`, the
message text of the exception `Property::set_value<int>` raises, the macro `BOARD_NAME` and
the firmware version `esp_app_get_description()->version`. -/
structure Collaborators where
  to_json : McpTool → String
  encode : ReturnValue → String
  what : Property → Int → String
  board_name : String
  app_version : String

/-! ## `DoToolCall` -/

/-- One turn of the loop `for (auto &argument : arguments)` up to the `found` flag: the
property after the assignment (if any) and `found`, or the exception of `set_value<int>`. -/
def bind_argument (what : Property → Int → String) (tool_arguments : Option cJSON)
    (argument : Property) : Except String (Property × Bool) :=
  if cJSON_IsObject tool_arguments then
    match argument.type, cJSON_GetObjectItem tool_arguments argument.name with
    | PropertyType.kPropertyTypeBoolean, some (cJSON.bool b) =>
      Except.ok (argument.set_value (Value.bool b), true)
    | PropertyType.kPropertyTypeInteger, some (cJSON.number valueint) =>
      match argument.set_value_int what valueint with
      | Except.ok argument1 => Except.ok (argument1, true)
      | Except.error e => Except.error e
    | PropertyType.kPropertyTypeString, some (cJSON.string valuestring) =>
      Except.ok (argument.set_value (Value.string valuestring), true)
    | _, _ => Except.ok (argument, false)
  else Except.ok (argument, false)

/-- How the binder loop of `DoToolCall` ends. -/
inductive Binding where
  | bound (arguments : PropertyList)
  | missing (name : String)
  | thrown (what : String)
  deriving DecidableEq, Repr

/-- The properties already passed by the loop, put in front of what the rest of the loop
yields; an early `return` of the rest of the loop stays as it is. -/
def Binding.prepend (done : PropertyList) : Binding → Binding
  | Binding.bound arguments => Binding.bound (done ++ arguments)
  | Binding.missing name => Binding.missing name
  | Binding.thrown e => Binding.thrown e

/-- The loop `for (auto &argument : arguments)` inside the `try` block: it stops at the first
property whose assignment throws, and at the first property that has no default and was not
found. -/
def bind_arguments (what : Property → Int → String) (tool_arguments : Option cJSON) :
    PropertyList → Binding
  | [] => Binding.bound []
  | argument :: rest =>
    match bind_argument what tool_arguments argument with
    | Except.error e => Binding.thrown e
    | Except.ok (argument1, found) =>
      if !argument1.has_default_value && !found then Binding.missing argument1.name
      else (bind_arguments what tool_arguments rest).prepend [argument1]

/-- The part of `DoToolCall` after the registry lookup: bind the arguments on a copy of the
tool's properties, then either reply with the error or hand the call to
`Application::Schedule`. -/
def DoToolCall.bind_and_schedule (c : Collaborators) (s : McpServer) (id : Int) (tool : McpTool)
    (tool_arguments : Option cJSON) : Outcome :=
  match bind_arguments c.what tool_arguments tool.properties with
  | Binding.missing name => Outcome.reply s (Reply.error id ("Missing valid argument: " ++ name))
  | Binding.thrown e => Outcome.reply s (Reply.error id e)
  | Binding.bound arguments =>
    { server := s, sent := [], scheduled := [{ id := id, tool := tool, arguments := arguments }],
      vision := [] }

/-- The method `DoToolCall(id, tool_name, tool_arguments)`.  The binder works on the copy
`PropertyList arguments = (*tool_iter)->properties()`, so the registry is returned as it
was. -/
def DoToolCall (c : Collaborators) (s : McpServer) (id : Int) (tool_name : String)
    (tool_arguments : Option cJSON) : Outcome :=
  match find_tool s tool_name with
  | none => Outcome.reply s (Reply.error id ("Unknown tool: " ++ tool_name))
  | some tool => DoToolCall.bind_and_schedule c s id tool tool_arguments

/-- Running the closure scheduled by `DoToolCall` on the device context:
`ReplyResult(id, tool->Call(arguments))`, or `ReplyError(id, e.what())` when the handler
throws. -/
def WorkItem.run (c : Collaborators) (w : WorkItem) : List Reply :=
  match w.tool.callback w.arguments with
  | Except.ok r => [Reply.result w.id (c.encode r)]
  | Except.error e => [Reply.error w.id e]

/-! ## `GetToolsList` -/

/-- The state of the `while` loop of `GetToolsList` when it ends: the text built so far and
`next_cursor`.  `added` is not a variable of the code: it lists the tools whose entries were
appended to `json`, in order. -/
structure Scan where
  json : String
  next_cursor : String
  added : List McpTool

/-- The `while (it != tools_.end())` loop of `GetToolsList`, from an iterator position (the
remaining tools) with the current `found_cursor` and `json`. -/
def GetToolsList.scan (to_json : McpTool → String) (cursor : String)
    (list_user_only_tools : Bool) : List McpTool → Bool → String → List McpTool → Scan
  | [], _, json, added => { json := json, next_cursor := "", added := added }
  | it :: rest, found_cursor, json, added =>
    if !found_cursor && !(it.name == cursor) then
      GetToolsList.scan to_json cursor list_user_only_tools rest false json added
    else if !list_user_only_tools && it.user_only then
      GetToolsList.scan to_json cursor list_user_only_tools rest true json added
    else
      let tool_json := to_json it ++ ","
      if json.utf8ByteSize + tool_json.utf8ByteSize + 30 > 8000 then
        { json := json, next_cursor := it.name, added := added }
      else
        GetToolsList.scan to_json cursor list_user_only_tools rest true (json ++ tool_json)
          (added ++ [it])

/-- The loop of `GetToolsList` run from `tools_.begin()`. -/
def GetToolsList.run (to_json : McpTool → String) (s : McpServer) (cursor : String)
    (list_user_only_tools : Bool) : Scan :=
  GetToolsList.scan to_json cursor list_user_only_tools s.tools_ cursor.isEmpty "\x7b\"tools\":[" []

/-- The statement `if (json.back() == ',') json.pop_back();`. -/
def pop_comma (json : String) : String :=
  if json.back == ',' then String.mk json.data.dropLast else json

/-- The reply `GetToolsList` sends: the error when no entry was appended to a non-empty
registry, the page otherwise, with `nextCursor` when `next_cursor` is not empty. -/
def GetToolsList.reply (c : Collaborators) (s : McpServer) (id : Int) (cursor : String)
    (list_user_only_tools : Bool) : Reply :=
  let r := GetToolsList.run c.to_json s cursor list_user_only_tools
  let json := pop_comma r.json
  if json.back == '[' && !s.tools_.isEmpty then
    Reply.error id ("Failed to add tool " ++ r.next_cursor ++ " because of payload size limit")
  else if r.next_cursor.isEmpty then
    Reply.result id (json ++ "]\x7d")
  else
    Reply.result id (json ++ "],\"nextCursor\":\"" ++ r.next_cursor ++ "\"\x7d")

/-- The method `GetToolsList(id, cursor, list_user_only_tools)`. -/
def GetToolsList (c : Collaborators) (s : McpServer) (id : Int) (cursor : String)
    (list_user_only_tools : Bool) : Outcome :=
  Outcome.reply s (GetToolsList.reply c s id cursor list_user_only_tools)

/-! ## `ParseMessage` -/

/-- The method `ParseCapabilities`: the `(url, token)` pair handed to the camera (or stored
for the remote camera) when `vision.url` is a string; the token is empty unless it is a
string. -/
def ParseCapabilities (capabilities : Option cJSON) : List (String × String) :=
  let vision := cJSON_GetObjectItem capabilities "vision"
  if cJSON_IsObject vision then
    match cJSON_GetObjectItem vision "url" with
    | some (cJSON.string url) =>
      match cJSON_GetObjectItem vision "token" with
      | some (cJSON.string token) => [(url, token)]
      | _ => [(url, "")]
    | _ => []
  else []

/-- The branch `method_str == "initialize"` of `ParseMessage`. -/
def handshake (c : Collaborators) (s : McpServer) (id_int : Int) (params : Option cJSON) :
    Outcome :=
  let capabilities := cJSON_GetObjectItem params "capabilities"
  { server := s,
    sent := [Reply.result id_int
      ("\x7b\"protocolVersion\":\"2024-11-05\",\"capabilities\":\x7b\"tools\":\x7b\x7d\x7d,\"serverInfo\":\x7b\"name\":\""
        ++ c.board_name ++ "\",\"version\":\"" ++ c.app_version ++ "\"\x7d\x7d")],
    scheduled := [],
    vision := if cJSON_IsObject params && cJSON_IsObject capabilities
      then ParseCapabilities capabilities else [] }

/-- The local `cursor_str` of the `tools/list` branch: `params.cursor` when it is a string,
empty otherwise. -/
def tools_list.cursor_str (params : Option cJSON) : String :=
  match cJSON_GetObjectItem params "cursor" with
  | some (cJSON.string valuestring) => valuestring
  | _ => ""

/-- The local `list_user_only_tools` of the `tools/list` branch: `valueint == 1` of
`params.withUserTools` when it is a boolean, false otherwise. -/
def tools_list.list_user_only_tools (params : Option cJSON) : Bool :=
  match cJSON_GetObjectItem params "withUserTools" with
  | some (cJSON.bool b) => b
  | _ => false

/-- The branch `method_str == "tools/list"` of `ParseMessage`. -/
def tools_list (c : Collaborators) (s : McpServer) (id_int : Int) (params : Option cJSON) :
    Outcome :=
  GetToolsList c s id_int (tools_list.cursor_str params) (tools_list.list_user_only_tools params)

/-- The branch `method_str == "tools/call"` of `ParseMessage`. -/
def tools_call (c : Collaborators) (s : McpServer) (id_int : Int) (params : Option cJSON) :
    Outcome :=
  if !cJSON_IsObject params then Outcome.reply s (Reply.error id_int "Missing params")
  else
    match cJSON_GetObjectItem params "name" with
    | some (cJSON.string tool_name) =>
      let tool_arguments := cJSON_GetObjectItem params "arguments"
      if tool_arguments.isSome && !cJSON_IsObject tool_arguments then
        Outcome.reply s (Reply.error id_int "Invalid arguments")
      else DoToolCall c s id_int tool_name tool_arguments
    | _ => Outcome.reply s (Reply.error id_int "Missing name")

/-- The method `ParseMessage(const cJSON *json)`. -/
def ParseMessage (c : Collaborators) (s : McpServer) (json : cJSON) : Outcome :=
  match cJSON_GetObjectItem (some json) "jsonrpc" with
  | some (cJSON.string version) =>
    if version != "2.0" then Outcome.nothing s
    else
      match cJSON_GetObjectItem (some json) "method" with
      | some (cJSON.string method_str) =>
        if "notifications".isPrefixOf method_str then Outcome.nothing s
        else
          let params := cJSON_GetObjectItem (some json) "params"
          if params.isSome && !cJSON_IsObject params then Outcome.nothing s
          else
            match cJSON_GetObjectItem (some json) "id" with
            | some (cJSON.number id_int) =>
              if method_str == "initialize" then handshake c s id_int params
              else if method_str == "tools/list" then tools_list c s id_int params
              else if method_str == "tools/call" then tools_call c s id_int params
              else Outcome.reply s (Reply.error id_int ("Method not implemented: " ++ method_str))
            | _ => Outcome.nothing s
      | _ => Outcome.nothing s
  | _ => Outcome.nothing s

/-- The overload `ParseMessage(const std::string &message)`: a text that `cJSON_Parse`
rejects is logged and dropped, a parsed one goes to `ParseMessage(const cJSON *)`.  The library
parser `cJSON_Parse` is a parameter. -/
def ParseMessage.string (cJSON_Parse : String → Option cJSON) (c : Collaborators)
    (s : McpServer) (message : String) : Outcome :=
  match cJSON_Parse message with
  | none => Outcome.nothing s
  | some json => ParseMessage c s json

/-! ## Vocabulary of the properties -/

/-- Whether the call's arguments hold, under the name of `p`, a value of the type `p`
declares: a boolean for a Boolean property, a number for an Integer property, a string for a
String property. -/
def has_typed_value (tool_arguments : Option cJSON) (p : Property) : Bool :=
  match p.type, cJSON_GetObjectItem tool_arguments p.name with
  | PropertyType.kPropertyTypeBoolean, some (cJSON.bool _) => true
  | PropertyType.kPropertyTypeInteger, some (cJSON.number _) => true
  | PropertyType.kPropertyTypeString, some (cJSON.string _) => true
  | _, _ => false

/-- Whether the call supplies, for the Integer property `p`, a number outside the declared
bounds of `p`. -/
def out_of_range (tool_arguments : Option cJSON) (p : Property) : Bool :=
  match p.type, cJSON_GetObjectItem tool_arguments p.name with
  | PropertyType.kPropertyTypeInteger, some (cJSON.number valueint) => !p.in_range valueint
  | _, _ => false

/-- The property value a JSON scalar stands for; nothing for null, arrays and objects. -/
def cJSON.to_value : cJSON → Option Value
  | cJSON.bool b => some (Value.bool b)
  | cJSON.number valueint => some (Value.int valueint)
  | cJSON.string valuestring => some (Value.string valuestring)
  | _ => none

/-- What the handler is to see for the schema property `p` in the bound property `q`: the
declaration of `p` with the caller's value when the arguments hold one under the name of `p`,
and with the stored default otherwise. -/
def bound_as_called (tool_arguments : Option cJSON) (p q : Property) : Prop :=
  q.name = p.name ∧ q.type = p.type ∧ q.has_default_value = p.has_default_value ∧
  q.min_value = p.min_value ∧ q.max_value = p.max_value ∧
  (match cJSON_GetObjectItem tool_arguments p.name with
    | some j => j.to_value = some q.value
    | none => q.value = p.value)

/-- Whether `GetToolsList` passes over the tool or not: a user-only tool is hidden unless
`list_user_only_tools` is set. -/
def visible (list_user_only_tools : Bool) (t : McpTool) : Bool :=
  list_user_only_tools || !t.user_only

/-- The entries of the given tools as the loop appends them: each `to_json()` followed by a
comma. -/
def entries (to_json : McpTool → String) : List McpTool → String
  | [] => ""
  | t :: ts => to_json t ++ "," ++ entries to_json ts

/-- What a client gets by following `nextCursor`: the pages, an error reply, or nothing yet
when it gave up. -/
inductive Listing where
  | pages (ps : List (List McpTool))
  | failed (message : String)
  | unfinished

/-- A page put in front of the pages that follow it. -/
def Listing.cons (page : List McpTool) : Listing → Listing
  | Listing.pages ps => Listing.pages (page :: ps)
  | Listing.failed message => Listing.failed message
  | Listing.unfinished => Listing.unfinished

/-- A client that calls `GetToolsList` with `cursor`, stops at an error reply and at a page
without `nextCursor`, and otherwise calls again with the `nextCursor` of the page, at most
`fuel` times.  The tools of a page are those whose entries the call appended. -/
def follow_cursor (c : Collaborators) (s : McpServer) (list_user_only_tools : Bool) :
    Nat → String → Listing
  | 0, _ => Listing.unfinished
  | fuel + 1, cursor =>
    match GetToolsList.reply c s 0 cursor list_user_only_tools with
    | Reply.error _ message => Listing.failed message
    | Reply.result _ _ =>
      let r := GetToolsList.run c.to_json s cursor list_user_only_tools
      if r.next_cursor.isEmpty then Listing.pages [r.added]
      else (follow_cursor c s list_user_only_tools fuel r.next_cursor).cons r.added

/-- The routing of `ParseMessage` once the envelope is accepted: the chain of comparisons on
`method_str`. -/
def dispatch (c : Collaborators) (s : McpServer) (id_int : Int) (method_str : String)
    (params : Option cJSON) : Outcome :=
  if method_str == "initialize" then handshake c s id_int params
  else if method_str == "tools/list" then tools_list c s id_int params
  else if method_str == "tools/call" then tools_call c s id_int params
  else Outcome.reply s (Reply.error id_int ("Method not implemented: " ++ method_str))

/-- The params member passes the check of `ParseMessage`: absent, or an object. -/
def params_accepted (params : Option cJSON) : Bool :=
  !(params.isSome && !cJSON_IsObject params)

/-- Where the loop of `GetToolsList` starts to emit: at the first tool for an empty cursor,
at the first tool named by the cursor otherwise, past the end when no tool has that name. -/
def start_position (tools : List McpTool) (cursor : String) : List McpTool :=
  if cursor.isEmpty then tools else tools.dropWhile (fun t => !(t.name == cursor))

/-- The request id a reply carries. -/
def Reply.id : Reply → Int
  | Reply.result id _ => id
  | Reply.error id _ => id

/-- Every reply an inbound message leads to: the replies `ParseMessage` sends itself, then
those of the work items it scheduled, run in submission order. -/
def process (c : Collaborators) (s : McpServer) (json : cJSON) : List Reply :=
  (ParseMessage c s json).sent ++
    ((ParseMessage c s json).scheduled.map (WorkItem.run c)).flatten

/-- The text `rest` such that the input is `expected` followed by `rest`. -/
def expect : List Char → List Char → Option (List Char)
  | [], rest => some rest
  | _ :: _, [] => none
  | e :: expected, x :: input => if e = x then expect expected input else none

/-- The character a two-character escape of a JSON string stands for (RFC 8259, section 7). -/
def unescape (e : Char) : Option Char :=
  if e = '"' then some '"'
  else if e = '\\' then some '\\'
  else if e = '/' then some '/'
  else if e = 'b' then some (Char.ofNat 8)
  else if e = 'f' then some (Char.ofNat 12)
  else if e = 'n' then some (Char.ofNat 10)
  else if e = 'r' then some (Char.ofNat 13)
  else if e = 't' then some (Char.ofNat 9)
  else none

/-- The value of a hexadecimal digit. -/
def hex_digit (h : Char) : Option Nat :=
  if '0' ≤ h ∧ h ≤ '9' then some (h.toNat - '0'.toNat)
  else if 'a' ≤ h ∧ h ≤ 'f' then some (h.toNat - 'a'.toNat + 10)
  else if 'A' ≤ h ∧ h ≤ 'F' then some (h.toNat - 'A'.toNat + 10)
  else none

/-- The code unit of the escape `\uXXXX`. -/
def hex4 (a b c d : Char) : Option Nat :=
  match hex_digit a, hex_digit b, hex_digit c, hex_digit d with
  | some x, some y, some z, some w => some (((x * 16 + y) * 16 + z) * 16 + w)
  | _, _, _, _ => none

/-- A JSON decoder reading a string after its opening quote, `fuel` characters at most: the
decoded text read so far is `text`; the result is the decoded text and what follows the closing
quote.  An unescaped control character, an unknown escape and a missing closing quote are
errors. -/
def read_string : Nat → List Char → List Char → Option (List Char × List Char)
  | 0, _, _ => none
  | _ + 1, [], _ => none
  | fuel + 1, ch :: rest, text =>
    if ch = '"' then some (text, rest)
    else if ch = '\\' then
      match rest with
      | [] => none
      | e :: rest1 =>
        if e = 'u' then
          match rest1 with
          | a :: b :: c :: d :: rest2 =>
            match hex4 a b c d with
            | some code => read_string fuel rest2 (text ++ [Char.ofNat code])
            | none => none
          | _ => none
        else
          match unescape e with
          | some decoded => read_string fuel rest1 (text ++ [decoded])
          | none => none
    else if ch.toNat < 32 then none
    else read_string fuel rest (text ++ [ch])

/-- A client decoding the payload of an error reply to the request `id`: the payload has to be
the object with the members `jsonrpc` = "2.0", `id` = the given id and `error`, an object with
the one member `message`, in the layout `ReplyError` writes; the result is the decoded
`error.message`. -/
def decode_error (id : Int) (payload : String) : Option String :=
  match expect ("\x7b\"jsonrpc\":\"2.0\",\"id\":" ++ toString id ++
      ",\"error\":\x7b\"message\":\"").data payload.data with
  | none => none
  | some rest =>
    match read_string (rest.length + 1) rest [] with
    | some (text, tail) => if tail = ['\x7d', '\x7d'] then some (String.mk text) else none
    | none => none

/-- What a successful turn of the binder loop tells about the schema property `p` and the
bound property `q`. -/
def turn_ok (a : Option cJSON) (p q : Property) : Prop :=
  out_of_range a p = false ∧ (p.has_default_value = true ∨ has_typed_value a p = true) ∧
    (has_typed_value a p = true → bound_as_called a p q) ∧ (has_typed_value a p = false → q = p)

/-! ## Sample registry used to evaluate the code on concrete calls -/

/-- Modelled from the spec: an instance of the parts `mcp_server.cc` takes from outside, used
only to evaluate concrete calls.  The spec words none of these texts: the serializer emits the
tool's name and description, the rejection message names the violated bound. -/
def sample : Collaborators :=
  { to_json := fun t => "\x7b\"name\":\"" ++ t.name ++ "\",\"description\":\"" ++ t.description ++ "\"\x7d",
    encode := fun r =>
      match r with
      | ReturnValue.bool b => if b then "true" else "false"
      | ReturnValue.text t => t
      | ReturnValue.structured _ => "\x7b\x7d",
    what := fun p v =>
      match p.min_value with
      | some lo =>
        if v < lo then "Value is below minimum allowed: " ++ toString lo
        else "Value exceeds maximum allowed: " ++ toString (p.max_value.getD 0)
      | none => "Value exceeds maximum allowed: " ++ toString (p.max_value.getD 0),
    board_name := "sparky",
    app_version := "1.0.0" }

/-- The scenario tool of the spec: `echo` with one required string property `msg`, returning
the text it was given. -/
def echo : McpTool :=
  McpTool.new "echo" "Echo the message"
    [Property.required "msg" PropertyType.kPropertyTypeString]
    (fun properties =>
      match properties with
      | [p] =>
        match p.value with
        | Value.string s => Except.ok (ReturnValue.text s)
        | _ => Except.error "bad_variant_access"
      | _ => Except.error "Property not found: msg")

/-- A tool with the property of `self.audio_speaker.set_volume` in `AddCommonTools`,
`Property("volume", kPropertyTypeInteger, 0, 100)` (bounds, no default), followed by a
required string `note`. -/
def set_volume : McpTool :=
  McpTool.new "self.audio_speaker.set_volume" "Set the volume of the audio speaker."
    [Property.ranged "volume" 0 100, Property.required "note" PropertyType.kPropertyTypeString]
    (fun _ => Except.ok (ReturnValue.bool true))

/-- The tool `self.screen.snapshot` of `AddUserOnlyTools`: a required `url` and
`Property("quality", kPropertyTypeInteger, 80, 1, 100)`. -/
def snapshot : McpTool :=
  (McpTool.new "self.screen.snapshot" "Snapshot the screen and upload it to a specific URL"
    [Property.required "url" PropertyType.kPropertyTypeString,
     Property.rangedDefault "quality" 80 1 100]
    (fun _ => Except.ok (ReturnValue.bool true))).set_user_only true

/-- A description of 4000 bytes. -/
@[irreducible] def long_text : String := String.mk (List.replicate 4000 'x')

/-- A tool whose entry takes about half of a page. -/
def wide : McpTool :=
  McpTool.new "wide" long_text [] (fun _ => Except.ok (ReturnValue.bool true))

/-- A tool registered under the empty name, with an entry of about half a page. -/
def unnamed : McpTool :=
  McpTool.new "" long_text [] (fun _ => Except.ok (ReturnValue.bool true))

/-- A registry of two tools with different names whose entries do not fit in one page. -/
def wide_registry : McpServer :=
  { tools_ := [wide, unnamed] }

/-- A description of 7927 bytes. -/
@[irreducible] def filler : String := String.mk (List.replicate 7927 'x')

/-- A tool whose entry fills a page up to the budget. -/
def brim : McpTool :=
  McpTool.new "brim" filler [] (fun _ => Except.ok (ReturnValue.bool true))

/-- A registry whose first tool fills the page: the second tool is left for the next page. -/
def brim_registry : McpServer :=
  { tools_ := [brim, set_volume] }

/-- A tool whose entry alone is over the budget of a page. -/
def giant : McpTool :=
  McpTool.new "giant" filler [] (fun _ => Except.ok (ReturnValue.bool true))

/-- A registry whose only tool visible without user-only tools is over the budget. -/
def giant_registry : McpServer :=
  { tools_ := [snapshot, giant] }

/-- A tool whose handler raises an error, as the camera tools do when the capture fails. -/
def failing : McpTool :=
  McpTool.new "failing" "Always fails" [] (fun _ => Except.error "Failed to capture photo")

/-- A registry holding the three sample tools. -/
def registry : McpServer :=
  { tools_ := [echo, set_volume, snapshot] }

/-! ## `AddCommonTools` -/

/-- What `AddCommonTools` asks the board for: whether `GetBacklight()`, the display theme and
`GetCamera()` are there, whether the build has `HAVE_LVGL`, and the handlers of the common
tools, which call into the board, by tool name. -/
structure Board where
  backlight : Bool
  have_lvgl : Bool
  theme : Bool
  camera : Bool
  handler : String → PropertyList → Except String ReturnValue

/-- The tools `AddCommonTools` passes to `AddTool`, in the order of the calls. -/
def common_tools (b : Board) : List McpTool :=
  [McpTool.new "self.get_device_status"
      "Provides the real-time information of the device, including the current status of the audio speaker, screen, battery, network, etc.\nUse this tool for: \n1. Answering questions about current condition (e.g. what is the current volume of the audio speaker?)\n2. As the first step to control the device (e.g. turn up / down the volume of the audio speaker, etc.)"
      [] (b.handler "self.get_device_status"),
    McpTool.new "self.audio_speaker.set_volume"
      "Set the volume of the audio speaker. If the current volume is unknown, you must call `self.get_device_status` tool first and then call this tool."
      [Property.ranged "volume" 0 100] (b.handler "self.audio_speaker.set_volume")] ++
  (if b.backlight then
    [McpTool.new "self.screen.set_brightness" "Set the brightness of the screen."
      [Property.ranged "brightness" 0 100] (b.handler "self.screen.set_brightness")]
   else []) ++
  (if b.have_lvgl then
    (if b.theme then
      [McpTool.new "self.screen.set_theme"
        "Set the theme of the screen. The theme can be `light` or `dark`."
        [Property.required "theme" PropertyType.kPropertyTypeString]
        (b.handler "self.screen.set_theme")]
     else []) ++
    [if b.camera then
      McpTool.new "self.camera.take_photo"
        "Take a photo and explain it. Use this tool after the user asks you to see something.\nArgs:\n  `question`: The question that you want to ask about the photo.\nReturn:\n  A JSON object that provides the photo information."
        [Property.required "question" PropertyType.kPropertyTypeString]
        (b.handler "self.camera.take_photo")
     else
      McpTool.new "self.camera.take_photo"
        "Take a photo from remote camera and explain it. Use this tool after the user asks you to see something.\nArgs:\n  `question`: The question that you want to ask about the photo.\nReturn:\n  A JSON object that provides the photo information."
        [Property.required "question" PropertyType.kPropertyTypeString]
        (b.handler "self.camera.take_photo")]
   else []) ++
  [McpTool.new "self.camera.remote.set"
      "Configure remote camera parameters.\nArgs:\n  `capture_url`: The URL to GET the camera image from.\n  `explain_url`: The URL to send image explain requests to.\n  `token`: Optional bearer token for explain server."
      [Property.required "capture_url" PropertyType.kPropertyTypeString,
       Property.required "explain_url" PropertyType.kPropertyTypeString,
       Property.required "token" PropertyType.kPropertyTypeString]
      (b.handler "self.camera.remote.set"),
    McpTool.new "self.camera.remote.get" "Get remote camera configuration." []
      (b.handler "self.camera.remote.get"),
    McpTool.new "self.camera.take_photo_remote"
      "Take a photo from configured remote camera and explain it. Args:\n  `question`: question for the AI analysis."
      [Property.required "question" PropertyType.kPropertyTypeString]
      (b.handler "self.camera.take_photo_remote"),
    McpTool.new "self.camera.remote.preview"
      "Download and display remote camera image on screen." []
      (b.handler "self.camera.remote.preview")]

/-- The method `AddCommonTools`: move `tools_` away, register the common tools into the now
empty registry through `AddTool`, then `tools_.insert(tools_.end(), original_tools...)`. -/
def AddCommonTools (b : Board) (s : McpServer) : McpServer :=
  let original_tools := s.tools_
  let registered := (common_tools b).foldl AddTool { tools_ := [] }
  { tools_ := registered.tools_ ++ original_tools }

/-- A call that changes the registry during bring-up. -/
inductive Registration where
  | add_tool (tool : McpTool)
  | add_user_only_tool (name description : String) (properties : PropertyList)
      (callback : PropertyList → Except String ReturnValue)
  | add_common_tools (b : Board)

/-- The registry after one registration call. -/
def Registration.apply (s : McpServer) : Registration → McpServer
  | Registration.add_tool tool => AddTool s tool
  | Registration.add_user_only_tool name description properties callback =>
    AddUserOnlyTool s name description properties callback
  | Registration.add_common_tools b => AddCommonTools b s

/-- The registry after a sequence of registration calls, starting from the empty registry. -/
def bring_up (calls : List Registration) : McpServer :=
  calls.foldl Registration.apply { tools_ := [] }

/-- A board with a backlight and a camera, built with `HAVE_LVGL`, whose handlers succeed. -/
def sample_board : Board :=
  { backlight := true, have_lvgl := true, theme := true, camera := true,
    handler := fun _ _ => Except.ok (ReturnValue.bool true) }

/-- The registry with the visibility of every tool set by `user_only`, everything else kept. -/
def relabel (user_only : McpTool → Bool) (s : McpServer) : McpServer :=
  { tools_ := s.tools_.map (fun t => t.set_user_only (user_only t)) }

/-! ## The hand action of the robot controllers (`sparky_controller.cc`,
`electron_bot_controller.cc`) -/

/-- The enumerator `ACTION_HAND_LEFT_UP`. -/
def ACTION_HAND_LEFT_UP : Int := 1
/-- The enumerator `ACTION_HAND_RIGHT_UP`. -/
def ACTION_HAND_RIGHT_UP : Int := 2
/-- The enumerator `ACTION_HAND_BOTH_UP`. -/
def ACTION_HAND_BOTH_UP : Int := 3
/-- The enumerator `ACTION_HAND_LEFT_DOWN`. -/
def ACTION_HAND_LEFT_DOWN : Int := 4
/-- The enumerator `ACTION_HAND_RIGHT_DOWN`. -/
def ACTION_HAND_RIGHT_DOWN : Int := 5
/-- The enumerator `ACTION_HAND_BOTH_DOWN`. -/
def ACTION_HAND_BOTH_DOWN : Int := 6
/-- The enumerator `ACTION_HAND_LEFT_WAVE`. -/
def ACTION_HAND_LEFT_WAVE : Int := 7
/-- The enumerator `ACTION_HAND_RIGHT_WAVE`. -/
def ACTION_HAND_RIGHT_WAVE : Int := 8
/-- The enumerator `ACTION_HAND_BOTH_WAVE`. -/
def ACTION_HAND_BOTH_WAVE : Int := 9
/-- The enumerator `ACTION_HAND_LEFT_FLAP`. -/
def ACTION_HAND_LEFT_FLAP : Int := 10
/-- The enumerator `ACTION_HAND_RIGHT_FLAP`. -/
def ACTION_HAND_RIGHT_FLAP : Int := 11
/-- The enumerator `ACTION_HAND_BOTH_FLAP`. -/
def ACTION_HAND_BOTH_FLAP : Int := 12
/-- The enumerator `ACTION_BODY_TURN_LEFT`. -/
def ACTION_BODY_TURN_LEFT : Int := 13
/-- The enumerator `ACTION_BODY_TURN_CENTER`. -/
def ACTION_BODY_TURN_CENTER : Int := 15
/-- The enumerator `ACTION_HEAD_UP`. -/
def ACTION_HEAD_UP : Int := 16
/-- The enumerator `ACTION_HEAD_NOD_REPEAT`. -/
def ACTION_HEAD_NOD_REPEAT : Int := 20
/-- The enumerator `ACTION_HOME`. -/
def ACTION_HOME : Int := 21

/-- The struct `SparkyBotActionParams` (`ElectronBotActionParams`) put on the action queue. -/
structure ActionParams where
  action_type : Int
  steps : Int
  speed : Int
  direction : Int
  amount : Int
  deriving DecidableEq, Repr

/-- The handler of `self.electron.hand_action`, from the five integers it reads out of the
properties to the parameters it passes to `QueueAction`. -/
def hand_action (action_type hand_type steps speed amount : Int) : ActionParams :=
  let base_action :=
    if action_type = 1 then ACTION_HAND_LEFT_UP
    else if action_type = 2 then ACTION_HAND_LEFT_DOWN
    else if action_type = 3 then ACTION_HAND_LEFT_WAVE
    else if action_type = 4 then ACTION_HAND_LEFT_FLAP
    else ACTION_HAND_LEFT_UP
  let amount1 :=
    if action_type = 2 ∨ action_type = 3 ∨ action_type = 4 then 0 else amount
  let action_id := base_action + (hand_type - 1)
  { action_type := action_id, steps := steps, speed := speed, direction := 0,
    amount := amount1 }

/-- The call `ActionTask` makes for the parameters it takes from the queue. -/
inductive Motion where
  | HandAction (action steps amount speed : Int)
  | BodyAction (direction steps amount speed : Int)
  | HeadAction (action steps amount speed : Int)
  | Home
  | nothing
  deriving DecidableEq, Repr

/-- The chain of range tests of `ActionTask` on `params.action_type`. -/
def ActionTask (params : ActionParams) : Motion :=
  if params.action_type ≥ ACTION_HAND_LEFT_UP ∧ params.action_type ≤ ACTION_HAND_BOTH_FLAP then
    Motion.HandAction params.action_type params.steps params.amount params.speed
  else if params.action_type ≥ ACTION_BODY_TURN_LEFT ∧
      params.action_type ≤ ACTION_BODY_TURN_CENTER then
    Motion.BodyAction (params.action_type - ACTION_BODY_TURN_LEFT + 1) params.steps
      params.amount params.speed
  else if params.action_type ≥ ACTION_HEAD_UP ∧ params.action_type ≤ ACTION_HEAD_NOD_REPEAT then
    Motion.HeadAction (params.action_type - ACTION_HEAD_UP + 1) params.steps params.amount
      params.speed
  else if params.action_type = ACTION_HOME then Motion.Home
  else Motion.nothing

/-- The enumerator the comments of `ActionType` give to an action (1 = raise, 2 = let go,
3 = wave, 4 = slap) of a hand (1 = left, 2 = right, 3 = both). -/
def hand_enumerator (action hand : Int) : Option Int :=
  if action = 1 ∧ hand = 1 then some ACTION_HAND_LEFT_UP
  else if action = 1 ∧ hand = 2 then some ACTION_HAND_RIGHT_UP
  else if action = 1 ∧ hand = 3 then some ACTION_HAND_BOTH_UP
  else if action = 2 ∧ hand = 1 then some ACTION_HAND_LEFT_DOWN
  else if action = 2 ∧ hand = 2 then some ACTION_HAND_RIGHT_DOWN
  else if action = 2 ∧ hand = 3 then some ACTION_HAND_BOTH_DOWN
  else if action = 3 ∧ hand = 1 then some ACTION_HAND_LEFT_WAVE
  else if action = 3 ∧ hand = 2 then some ACTION_HAND_RIGHT_WAVE
  else if action = 3 ∧ hand = 3 then some ACTION_HAND_BOTH_WAVE
  else if action = 4 ∧ hand = 1 then some ACTION_HAND_LEFT_FLAP
  else if action = 4 ∧ hand = 2 then some ACTION_HAND_RIGHT_FLAP
  else if action = 4 ∧ hand = 3 then some ACTION_HAND_BOTH_FLAP
  else none

/-! ## `RemoteCamera::Capture` (`remote_camera.cc`) -/

/-- The members of `RemoteCamera` that `Capture` writes: the stored frame (`none` is the null
pointer), its length and its nominal size.  A byte is a natural number below 256. -/
structure RemoteCamera where
  frame_data_ : Option (List Nat)
  frame_len_ : Nat
  frame_width_ : Nat
  frame_height_ : Nat
  deriving DecidableEq, Repr

/-- The loop `for (size_t i = 0; i < total_read - 1; i++)` looking for `0xFF 0xD8`, with
`remaining` turns left from index `i`: the offset of `jpeg_start`, if set. -/
def Capture.find_start (data : List Nat) : Nat → Nat → Option Nat
  | 0, _ => none
  | remaining + 1, i =>
    if data.getD i 0 = 0xFF ∧ data.getD (i + 1) 0 = 0xD8 then some i
    else Capture.find_start data remaining (i + 1)

/-- The loop `for (size_t i = total_read - 1; i > jpeg_start - data + 1; i--)` looking for
`0xFF 0xD9` at `i - 1` and `i`, from index `i` downwards: the offset of `jpeg_end`, if set. -/
def Capture.find_end (data : List Nat) (jpeg_start : Nat) : Nat → Option Nat
  | 0 => none
  | i + 1 =>
    if i + 1 > jpeg_start + 1 then
      if data.getD i 0 = 0xFF ∧ data.getD (i + 1) 0 = 0xD9 then some (i + 1 + 1)
      else Capture.find_end data jpeg_start i
    else none

/-- The part of `Capture` after the download: `data` holds the `total_read` bytes that were
read, `malloc_ok` tells whether `heap_caps_malloc` for the extracted JPEG succeeds.  The
result is the return value and the camera afterwards. -/
def Capture.store (cam : RemoteCamera) (data : List Nat) (malloc_ok : Bool) :
    Bool × RemoteCamera :=
  let total_read := data.length
  if total_read < 2 then (false, cam)
  else if data.getD 0 0 = 0xFF ∧ data.getD 1 0 = 0xD8 then
    (true, { frame_data_ := some data, frame_len_ := total_read,
             frame_width_ := 320, frame_height_ := 240 })
  else
    match Capture.find_start data (total_read - 1) 0 with
    | none => (false, cam)
    | some jpeg_start =>
      match Capture.find_end data jpeg_start (total_read - 1) with
      | none => (false, cam)
      | some jpeg_end =>
        let jpeg_size := jpeg_end - jpeg_start
        if malloc_ok then
          (true, { frame_data_ := some ((data.drop jpeg_start).take jpeg_size),
                   frame_len_ := jpeg_size, frame_width_ := 320, frame_height_ := 240 })
        else (false, cam)

/-- Whether the bytes at `i` and `i + 1` are the pair `a`, `b`. -/
def pair_at (data : List Nat) (a b : Nat) (i : Nat) : Prop :=
  i + 1 < data.length ∧ data.getD i 0 = a ∧ data.getD (i + 1) 0 = b

/-! ## The binder, one property at a time -/

theorem cJSON_GetObjectItem_not_object (a : Option cJSON) (name : String)
    (h : cJSON_IsObject a = false) : cJSON_GetObjectItem a name = none := by
  unfold cJSON_GetObjectItem
  split
  · simp [cJSON_IsObject] at h
  · rfl

theorem has_typed_value_is_object (a : Option cJSON) (p : Property)
    (h : has_typed_value a p = true) : cJSON_IsObject a = true := by
  by_contra hno
  have hno1 : cJSON_IsObject a = false := by simpa using hno
  have hnone := cJSON_GetObjectItem_not_object a p.name hno1
  unfold has_typed_value at h
  rw [hnone] at h
  split at h <;> simp_all

theorem bind_argument_untyped (what : Property → Int → String) (a : Option cJSON) (p : Property)
    (h : has_typed_value a p = false) : bind_argument what a p = Except.ok (p, false) := by
  unfold bind_argument
  split
  · unfold has_typed_value at h
    split <;> simp_all
  · rfl

theorem bind_argument_typed (what : Property → Int → String) (a : Option cJSON) (p : Property)
    (h : has_typed_value a p = true) (hr : out_of_range a p = false) :
    ∃ q, bind_argument what a p = Except.ok (q, true) ∧ bound_as_called a p q := by
  have hobj := has_typed_value_is_object a p h
  unfold bind_argument
  rw [if_pos hobj]
  unfold has_typed_value at h
  unfold out_of_range at hr
  unfold bound_as_called
  split <;> simp_all [Property.set_value, Property.set_value_int, cJSON.to_value]

theorem bind_argument_rejected (what : Property → Int → String) (a : Option cJSON) (p : Property)
    (v : Int) (ht : p.type = PropertyType.kPropertyTypeInteger)
    (hv : cJSON_GetObjectItem a p.name = some (cJSON.number v)) (hr : p.in_range v = false) :
    bind_argument what a p = Except.error (what p v) := by
  have hobj : cJSON_IsObject a = true := by
    by_contra hno
    have hno1 : cJSON_IsObject a = false := by simpa using hno
    rw [cJSON_GetObjectItem_not_object a p.name hno1] at hv
    simp at hv
  unfold bind_argument
  rw [if_pos hobj, ht, hv]
  simp [Property.set_value_int, hr]

theorem bind_argument_ok (what : Property → Int → String) (a : Option cJSON) (p q : Property)
    (found : Bool) (h : bind_argument what a p = Except.ok (q, found)) :
    out_of_range a p = false ∧ found = has_typed_value a p ∧
      (found = true → bound_as_called a p q) ∧ (found = false → q = p) := by
  cases ht : has_typed_value a p
  · rw [bind_argument_untyped what a p ht] at h
    simp at h
    obtain ⟨rfl, rfl⟩ := h
    refine ⟨?_, rfl, by simp, by simp⟩
    unfold out_of_range
    unfold has_typed_value at ht
    split <;> simp_all
  · cases hr : out_of_range a p
    · obtain ⟨q1, hq1, hb⟩ := bind_argument_typed what a p ht hr
      rw [hq1] at h
      simp at h
      obtain ⟨rfl, rfl⟩ := h
      exact ⟨rfl, rfl, fun _ => hb, by simp⟩
    · exfalso
      unfold out_of_range at hr
      split at hr
      · rename_i v hty hv
        have hr1 : p.in_range v = false := by simpa using hr
        rw [bind_argument_rejected what a p v hty hv hr1] at h
        simp at h
      · simp at hr


/-! ## The binder loop -/

theorem prepend_eq_bound (done qs : PropertyList) (b : Binding)
    (h : b.prepend done = Binding.bound qs) :
    ∃ rest1, b = Binding.bound rest1 ∧ qs = done ++ rest1 := by
  cases b with
  | bound r => simp [Binding.prepend] at h; exact ⟨r, rfl, h.symm⟩
  | missing n => simp [Binding.prepend] at h
  | thrown e => simp [Binding.prepend] at h

theorem prepend_prepend (xs ys : PropertyList) (b : Binding) :
    (b.prepend ys).prepend xs = b.prepend (xs ++ ys) := by
  cases b <;> simp [Binding.prepend]

theorem bind_arguments_cons (what : Property → Int → String) (a : Option cJSON)
    (p q : Property) (found : Bool) (rest : PropertyList)
    (hb : bind_argument what a p = Except.ok (q, found)) :
    bind_arguments what a (p :: rest) =
      if !q.has_default_value && !found then Binding.missing q.name
      else (bind_arguments what a rest).prepend [q] := by
  rw [bind_arguments, hb]

theorem bind_arguments_bound (what : Property → Int → String) (a : Option cJSON) :
    ∀ (ps qs : PropertyList), bind_arguments what a ps = Binding.bound qs →
      List.Forall₂ (turn_ok a) ps qs := by
  intro ps
  induction ps with
  | nil =>
    intro qs h
    simp [bind_arguments] at h
    subst h
    exact List.Forall₂.nil
  | cons p rest ih =>
    intro qs h
    cases hb : bind_argument what a p with
    | error e => rw [bind_arguments, hb] at h; simp at h
    | ok r =>
      obtain ⟨q, found⟩ := r
      rw [bind_arguments_cons what a p q found rest hb] at h
      obtain ⟨hr, hf, hyes, hno⟩ := bind_argument_ok what a p q found hb
      split at h
      · simp at h
      · rename_i hgo
        obtain ⟨rest1, hrest, rfl⟩ := prepend_eq_bound _ _ _ h
        refine List.Forall₂.cons ⟨hr, ?_, ?_, ?_⟩ (ih rest1 hrest)
        · cases hfd : found
          · have hqp := hno hfd
            subst hqp
            simp [hfd] at hgo
            exact Or.inl hgo
          · right; rw [← hf]; exact hfd
        · intro ht; exact hyes (by rw [hf]; exact ht)
        · intro ht; exact hno (by rw [hf]; exact ht)

theorem bind_arguments_append (what : Property → Int → String) (a : Option cJSON)
    (rest : PropertyList) : ∀ (pre pre1 : PropertyList),
    bind_arguments what a pre = Binding.bound pre1 →
    bind_arguments what a (pre ++ rest) = (bind_arguments what a rest).prepend pre1 := by
  intro pre
  induction pre with
  | nil =>
    intro pre1 h
    simp [bind_arguments] at h
    subst h
    cases hrest : bind_arguments what a rest <;> simp [Binding.prepend, hrest]
  | cons p pre ih =>
    intro pre1 h
    rw [List.cons_append]
    cases hb : bind_argument what a p with
    | error e => rw [bind_arguments, hb] at h; simp at h
    | ok r =>
      obtain ⟨q, found⟩ := r
      rw [bind_arguments_cons what a p q found _ hb] at h ⊢
      split at h
      · simp at h
      · rename_i hgo
        rw [if_neg hgo]
        obtain ⟨pre2, hpre, rfl⟩ := prepend_eq_bound _ _ _ h
        rw [ih pre2 hpre, prepend_prepend]

theorem bind_arguments_complete (what : Property → Int → String) (a : Option cJSON) :
    ∀ (ps : PropertyList),
      (∀ p ∈ ps, out_of_range a p = false ∧
        (p.has_default_value = true ∨ has_typed_value a p = true)) →
      ∃ qs, bind_arguments what a ps = Binding.bound qs := by
  intro ps
  induction ps with
  | nil => intro _; exact ⟨[], rfl⟩
  | cons p rest ih =>
    intro h
    obtain ⟨hr, hd⟩ := h p (List.mem_cons_self p rest)
    obtain ⟨rest1, hrest⟩ := ih (fun q hq => h q (List.mem_cons_of_mem p hq))
    cases ht : has_typed_value a p
    · have hdef : p.has_default_value = true := by
        rcases hd with hd | hd
        · exact hd
        · rw [ht] at hd; simp at hd
      rw [bind_arguments_cons what a p p false rest (bind_argument_untyped what a p ht), hrest]
      simp [hdef, Binding.prepend]
    · obtain ⟨q, hq, hb⟩ := bind_argument_typed what a p ht hr
      rw [bind_arguments_cons what a p q true rest hq, hrest]
      simp [Binding.prepend]

theorem bind_arguments_missing (what : Property → Int → String) (a : Option cJSON)
    (p : Property) (post : PropertyList) (hd : p.has_default_value = false)
    (ht : has_typed_value a p = false) :
    bind_arguments what a (p :: post) = Binding.missing p.name := by
  rw [bind_arguments_cons what a p p false post (bind_argument_untyped what a p ht)]
  simp [hd]

theorem bind_arguments_default (what : Property → Int → String) (a : Option cJSON)
    (p : Property) (post : PropertyList) (hd : p.has_default_value = true)
    (ht : has_typed_value a p = false) :
    bind_arguments what a (p :: post) = (bind_arguments what a post).prepend [p] := by
  rw [bind_arguments_cons what a p p false post (bind_argument_untyped what a p ht)]
  simp [hd]

/-! ## Registry lemmas -/

theorem find_tool_none (s : McpServer) (tool_name : String)
    (h : ∀ t ∈ s.tools_, t.name ≠ tool_name) : find_tool s tool_name = none := by
  unfold find_tool
  rw [List.find?_eq_none]
  intro t ht
  simpa using h t ht

theorem find_tool_first (s : McpServer) (tool_name : String)
    (h : ∃ t ∈ s.tools_, t.name = tool_name) :
    ∃ pre first post, s.tools_ = pre ++ first :: post ∧ (∀ q ∈ pre, q.name ≠ tool_name) ∧
      first.name = tool_name ∧ find_tool s tool_name = some first := by
  unfold find_tool
  cases hfind : s.tools_.find? (fun tool => tool.name == tool_name) with
  | none =>
    exfalso
    rw [List.find?_eq_none] at hfind
    obtain ⟨t, ht, hn⟩ := h
    exact hfind t ht (by simpa using hn)
  | some first =>
    rw [List.find?_eq_some] at hfind
    obtain ⟨hname, pre, post, hsplit, hpre⟩ := hfind
    refine ⟨pre, first, post, hsplit, ?_, by simpa using hname, rfl⟩
    intro q hq
    simpa using hpre q hq

theorem DoToolCall_found (c : Collaborators) (s : McpServer) (id : Int) (tool_name : String)
    (a : Option cJSON) (tool : McpTool) (hfind : find_tool s tool_name = some tool) :
    DoToolCall c s id tool_name a = DoToolCall.bind_and_schedule c s id tool a := by
  unfold DoToolCall
  rw [hfind]

theorem DoToolCall_of_bound (c : Collaborators) (s : McpServer) (id : Int) (tool_name : String)
    (a : Option cJSON) (tool : McpTool) (arguments : PropertyList)
    (hfind : find_tool s tool_name = some tool)
    (hb : bind_arguments c.what a tool.properties = Binding.bound arguments) :
    DoToolCall c s id tool_name a =
      { server := s, sent := [],
        scheduled := [{ id := id, tool := tool, arguments := arguments }], vision := [] } := by
  rw [DoToolCall_found c s id tool_name a tool hfind, DoToolCall.bind_and_schedule, hb]

theorem DoToolCall_of_missing (c : Collaborators) (s : McpServer) (id : Int) (tool_name : String)
    (a : Option cJSON) (tool : McpTool) (name : String)
    (hfind : find_tool s tool_name = some tool)
    (hb : bind_arguments c.what a tool.properties = Binding.missing name) :
    DoToolCall c s id tool_name a =
      Outcome.reply s (Reply.error id ("Missing valid argument: " ++ name)) := by
  rw [DoToolCall_found c s id tool_name a tool hfind, DoToolCall.bind_and_schedule, hb]

theorem DoToolCall_of_thrown (c : Collaborators) (s : McpServer) (id : Int) (tool_name : String)
    (a : Option cJSON) (tool : McpTool) (e : String)
    (hfind : find_tool s tool_name = some tool)
    (hb : bind_arguments c.what a tool.properties = Binding.thrown e) :
    DoToolCall c s id tool_name a = Outcome.reply s (Reply.error id e) := by
  rw [DoToolCall_found c s id tool_name a tool hfind, DoToolCall.bind_and_schedule, hb]

theorem DoToolCall_scheduled (c : Collaborators) (s : McpServer) (id : Int) (tool_name : String)
    (a : Option cJSON) (w : WorkItem) (hw : w ∈ (DoToolCall c s id tool_name a).scheduled) :
    find_tool s tool_name = some w.tool ∧ w.id = id ∧
      bind_arguments c.what a w.tool.properties = Binding.bound w.arguments ∧
      (DoToolCall c s id tool_name a).sent = [] ∧
      (DoToolCall c s id tool_name a).scheduled = [w] := by
  cases hfind : find_tool s tool_name with
  | none =>
    unfold DoToolCall at hw
    rw [hfind] at hw
    simp [Outcome.reply] at hw
  | some tool =>
    cases hb : bind_arguments c.what a tool.properties with
    | missing n =>
      rw [DoToolCall_of_missing c s id tool_name a tool n hfind hb] at hw
      simp [Outcome.reply] at hw
    | thrown e =>
      rw [DoToolCall_of_thrown c s id tool_name a tool e hfind hb] at hw
      simp [Outcome.reply] at hw
    | bound arguments =>
      rw [DoToolCall_of_bound c s id tool_name a tool arguments hfind hb] at hw ⊢
      simp at hw
      subst hw
      exact ⟨rfl, rfl, hb, rfl, rfl⟩

theorem forall₂_imp_left {α β : Type} (r t : α → β → Prop) :
    ∀ (xs : List α) (ys : List β), List.Forall₂ r xs ys →
      (∀ x ∈ xs, ∀ y, r x y → t x y) → List.Forall₂ t xs ys := by
  intro xs ys h
  induction h with
  | nil => intro _; exact List.Forall₂.nil
  | cons hxy _ ih =>
    intro himp
    exact List.Forall₂.cons (himp _ (List.mem_cons_self _ _) _ hxy)
      (ih (fun x hx y hr => himp x (List.mem_cons_of_mem _ hx) y hr))

theorem forall₂_map_eq {α β γ : Type} (f : α → γ) (g : β → γ) (r : α → β → Prop)
    (hr : ∀ x y, r x y → g y = f x) :
    ∀ (xs : List α) (ys : List β), List.Forall₂ r xs ys → ys.map g = xs.map f := by
  intro xs ys h
  induction h with
  | nil => rfl
  | cons hxy _ ih => simp [hr _ _ hxy, ih]

theorem bound_as_called_self (a : Option cJSON) (p : Property)
    (h : cJSON_GetObjectItem a p.name = none) : bound_as_called a p p := by
  unfold bound_as_called
  rw [h]
  simp

theorem DoToolCall_server (c : Collaborators) (s : McpServer) (id : Int) (tool_name : String)
    (a : Option cJSON) : (DoToolCall c s id tool_name a).server = s := by
  unfold DoToolCall
  cases find_tool s tool_name with
  | none => rfl
  | some tool =>
    simp only [DoToolCall.bind_and_schedule]
    cases bind_arguments c.what a tool.properties <;> rfl


/-! ## The listing loop -/

theorem scan_skip (to_json : McpTool → String) (cursor : String) (flag : Bool)
    (R : List McpTool) (json : String) (added : List McpTool) :
    ∀ A : List McpTool, (∀ q ∈ A, q.name ≠ cursor) →
      GetToolsList.scan to_json cursor flag (A ++ R) false json added =
        GetToolsList.scan to_json cursor flag R false json added := by
  intro A
  induction A with
  | nil => intro _; rfl
  | cons q A ih =>
    intro h
    have hq : (q.name == cursor) = false := by simpa using h q (List.mem_cons_self q A)
    rw [List.cons_append, GetToolsList.scan]
    simp only [hq, Bool.not_false, Bool.not_true, Bool.and_self, if_true]
    exact ih (fun r hr => h r (List.mem_cons_of_mem q hr))

theorem scan_at_cursor (to_json : McpTool → String) (cursor : String) (flag : Bool)
    (t : McpTool) (B : List McpTool) (json : String) (added : List McpTool)
    (ht : t.name = cursor) :
    GetToolsList.scan to_json cursor flag (t :: B) false json added =
      GetToolsList.scan to_json cursor flag (t :: B) true json added := by
  have hq : (t.name == cursor) = true := by simpa using ht
  rw [GetToolsList.scan, GetToolsList.scan]
  simp [hq]

theorem scan_not_found (to_json : McpTool → String) (cursor : String) (flag : Bool)
    (json : String) (added : List McpTool) :
    ∀ A : List McpTool, (∀ q ∈ A, q.name ≠ cursor) →
      GetToolsList.scan to_json cursor flag A false json added =
        { json := json, next_cursor := "", added := added } := by
  intro A h
  have := scan_skip to_json cursor flag [] json added A h
  rw [List.append_nil] at this
  rw [this]
  rfl

theorem scan_found (to_json : McpTool → String) (cursor : String) (flag : Bool) :
    ∀ (rest : List McpTool) (json : String) (added : List McpTool),
      ((GetToolsList.scan to_json cursor flag rest true json added).next_cursor = "" ∧
        (GetToolsList.scan to_json cursor flag rest true json added).added =
          added ++ rest.filter (visible flag) ∧
        (GetToolsList.scan to_json cursor flag rest true json added).json =
          json ++ entries to_json (rest.filter (visible flag))) ∨
      (∃ pre t post, rest = pre ++ t :: post ∧ visible flag t = true ∧
        (GetToolsList.scan to_json cursor flag rest true json added).next_cursor = t.name ∧
        (GetToolsList.scan to_json cursor flag rest true json added).added =
          added ++ pre.filter (visible flag) ∧
        (GetToolsList.scan to_json cursor flag rest true json added).json =
          json ++ entries to_json (pre.filter (visible flag))) := by
  intro rest
  induction rest with
  | nil =>
    intro json added
    left
    simp [GetToolsList.scan, entries]
  | cons it rest ih =>
    intro json added
    rw [GetToolsList.scan]
    simp only [Bool.not_true, Bool.false_and, if_false]
    cases hv : visible flag it
    · have hhid : (!flag && it.user_only) = true := by
        unfold visible at hv
        cases flag <;> cases hu : it.user_only <;> simp_all
      simp only [hhid, if_true, Bool.false_eq_true]
      rcases ih json added with h | ⟨pre, t, post, hsplit, hvt, h⟩
      · left
        simpa [List.filter_cons, hv] using h
      · right
        refine ⟨it :: pre, t, post, by rw [hsplit]; rfl, hvt, ?_⟩
        simpa [List.filter_cons, hv] using h
    · have hhid : (!flag && it.user_only) = false := by
        unfold visible at hv
        cases flag <;> cases hu : it.user_only <;> simp_all
      simp only [hhid, Bool.false_eq_true, if_false]
      split
      · right
        exact ⟨[], it, rest, rfl, hv, rfl, by simp, by simp [entries]⟩
      · rcases ih (json ++ (to_json it ++ ",")) (added ++ [it]) with h | ⟨pre, t, post, hsplit, hvt, h⟩
        · left
          simpa [List.filter_cons, hv, entries, String.append_assoc] using h
        · right
          refine ⟨it :: pre, t, post, by rw [hsplit]; rfl, hvt, ?_⟩
          simpa [List.filter_cons, hv, entries, String.append_assoc] using h


theorem isEmpty_eq_false (x : String) (h : x ≠ "") : x.isEmpty = false := by
  cases hx : x.isEmpty
  · rfl
  · exact absurd ((String.isEmpty_iff x).mp hx) h

theorem run_from_start (to_json : McpTool → String) (s : McpServer) (flag : Bool) :
    GetToolsList.run to_json s "" flag =
      GetToolsList.scan to_json "" flag s.tools_ true "\x7b\"tools\":[" [] := rfl

theorem run_from_cursor (to_json : McpTool → String) (s : McpServer) (flag : Bool)
    (cursor : String) (A B : List McpTool) (t : McpTool) (hc : cursor ≠ "")
    (hsplit : s.tools_ = A ++ t :: B) (hA : ∀ q ∈ A, q.name ≠ cursor) (ht : t.name = cursor) :
    GetToolsList.run to_json s cursor flag =
      GetToolsList.scan to_json cursor flag (t :: B) true "\x7b\"tools\":[" [] := by
  unfold GetToolsList.run
  rw [isEmpty_eq_false cursor hc, hsplit, scan_skip to_json cursor flag _ _ _ A hA,
    scan_at_cursor to_json cursor flag t B _ _ ht]

theorem reply_error_of_nothing_added (c : Collaborators) (s : McpServer) (id : Int)
    (cursor : String) (flag : Bool) (hne : s.tools_ ≠ [])
    (hjson : (GetToolsList.run c.to_json s cursor flag).json = "\x7b\"tools\":[") :
    GetToolsList.reply c s id cursor flag =
      Reply.error id ("Failed to add tool " ++
        (GetToolsList.run c.to_json s cursor flag).next_cursor ++
        " because of payload size limit") := by
  have hpop : pop_comma "\x7b\"tools\":[" = "\x7b\"tools\":[" := by decide
  have hback : ("\x7b\"tools\":[".back == '[') = true := by decide
  have hemp : s.tools_.isEmpty = false := by
    cases hs : s.tools_ with
    | nil => exact absurd hs hne
    | cons _ _ => rfl
  unfold GetToolsList.reply
  simp only [hjson, hpop, hback, hemp, Bool.not_false, Bool.and_self, if_true]

theorem follow_cursor_from (c : Collaborators) (s : McpServer) (flag : Bool)
    (hnd : (s.tools_.map (fun t => t.name)).Nodup) (hnames : ∀ t ∈ s.tools_, t.name ≠ "") :
    ∀ (fuel : Nat) (A R : List McpTool) (cursor : String), s.tools_ = A ++ R →
      R.length < fuel →
      ((cursor = "" ∧ A = []) ∨ (cursor ≠ "" ∧ ∃ t B, R = t :: B ∧ t.name = cursor)) →
      (∃ m, follow_cursor c s flag fuel cursor = Listing.failed m) ∨
      (∃ ps, follow_cursor c s flag fuel cursor = Listing.pages ps ∧
        ps.flatten = R.filter (visible flag)) := by
  intro fuel
  induction fuel with
  | zero => intro A R cursor _ hlen; omega
  | succ fuel ih =>
    intro A R cursor hsplit hlen hstart
    have hrun : GetToolsList.run c.to_json s cursor flag =
        GetToolsList.scan c.to_json cursor flag R true "\x7b\"tools\":[" [] := by
      rcases hstart with ⟨hc, hA⟩ | ⟨hc, t, B, hR, ht⟩
      · subst hc
        rw [run_from_start, hsplit, hA]
        rfl
      · rw [hR]
        refine run_from_cursor c.to_json s flag cursor A B t hc (by rw [hsplit, hR]) ?_ ht
        intro q hq hqc
        rw [hsplit, hR, List.map_append, List.nodup_append] at hnd
        refine hnd.2.2 (List.mem_map_of_mem (fun t => t.name) hq) ?_
        rw [hqc, ← ht]
        exact List.mem_map_of_mem (fun t => t.name) (List.mem_cons_self t B)
    rw [follow_cursor]
    cases hreply : GetToolsList.reply c s 0 cursor flag with
    | error _ m => exact Or.inl ⟨m, rfl⟩
    | result _ body =>
      simp only
      rcases scan_found c.to_json cursor flag R "\x7b\"tools\":[" [] with
        ⟨hnext, hadded, _⟩ | ⟨pre, t, post, hR, _, hnext, hadded, hjson⟩
      · right
        rw [← hrun] at hnext hadded
        refine ⟨[(GetToolsList.run c.to_json s cursor flag).added], ?_, ?_⟩
        · rw [hnext]; rfl
        · rw [hadded]; simp
      · rw [← hrun] at hnext hadded hjson
        have htmem : t ∈ s.tools_ := by rw [hsplit, hR]; simp
        have hpre : pre.filter (visible flag) ≠ [] := by
          intro hnil
          rw [hnil] at hjson
          have hne : s.tools_ ≠ [] := List.ne_nil_of_mem htmem
          rw [reply_error_of_nothing_added c s 0 cursor flag hne (by rw [hjson]; rfl)] at hreply
          simp at hreply
        have hpre1 : pre ≠ [] := by
          intro hnil
          rw [hnil] at hpre
          exact hpre rfl
        have hlen1 : (t :: post).length < fuel := by
          have : 0 < pre.length := List.length_pos.mpr hpre1
          rw [hR, List.length_append] at hlen
          omega
        rw [hnext, isEmpty_eq_false t.name (hnames t htmem)]
        simp only [Bool.false_eq_true, if_false]
        rcases ih (A ++ pre) (t :: post) t.name (by rw [hsplit, hR, List.append_assoc]) hlen1
          (Or.inr ⟨hnames t htmem, t, post, rfl, rfl⟩) with ⟨m, hm⟩ | ⟨ps, hps, hflat⟩
        · left
          rw [hm]
          exact ⟨m, rfl⟩
        · right
          rw [hps]
          refine ⟨(GetToolsList.run c.to_json s cursor flag).added :: ps, rfl, ?_⟩
          rw [List.flatten_cons, hflat, hadded, hR, List.filter_append]
          simp

/-! ## The sample registries, evaluated -/

theorem utf8ByteSize_append (x y : String) :
    (x ++ y).utf8ByteSize = x.utf8ByteSize + y.utf8ByteSize := by
  have h : x ++ y = String.mk (x.data ++ y.data) := rfl
  rw [h, String.utf8ByteSize_mk, String.utf8Len_append]
  cases x; cases y
  rfl

theorem utf8Len_replicate (n : Nat) : String.utf8Len (List.replicate n 'x') = n := by
  induction n with
  | zero => rfl
  | succ n ih =>
    rw [List.replicate_succ, String.utf8Len_cons, ih]
    rfl

theorem long_text_size : long_text.utf8ByteSize = 4000 := by
  unfold long_text
  rw [String.utf8ByteSize_mk, utf8Len_replicate]

theorem sample_entry_size (t : McpTool) :
    (sample.to_json t ++ ",").utf8ByteSize =
      29 + t.name.utf8ByteSize + t.description.utf8ByteSize := by
  simp only [sample, utf8ByteSize_append]
  have h1 : "\x7b\"name\":\"".utf8ByteSize = 9 := by decide
  have h2 : "\",\"description\":\"".utf8ByteSize = 17 := by decide
  have h3 : "\"\x7d".utf8ByteSize = 2 := by decide
  have h4 : ",".utf8ByteSize = 1 := by decide
  rw [h1, h2, h3, h4]
  omega

theorem back_of_data (x : String) (l : List Char) (ch : Char) (h : x.data = l ++ [ch]) :
    x.back = ch := by
  rw [String.back_eq, h]
  simp

theorem pop_comma_entry (x y : String) : pop_comma (x ++ (y ++ ",")) = x ++ y := by
  have hdata : (x ++ (y ++ ",")).data = (x.data ++ y.data) ++ [','] := by
    simp [String.data_append]
  unfold pop_comma
  rw [back_of_data _ _ _ hdata, hdata]
  simp
  rfl

theorem wide_run :
    GetToolsList.run sample.to_json wide_registry "" true =
      { json := "\x7b\"tools\":[" ++ (sample.to_json wide ++ ","), next_cursor := "",
        added := [wide] } := by
  have h0 : "\x7b\"tools\":[".utf8ByteSize = 10 := by decide
  have h1 : (sample.to_json wide ++ ",").utf8ByteSize = 4033 := by
    rw [sample_entry_size]
    have : wide.description.utf8ByteSize = 4000 := long_text_size
    have hn : wide.name.utf8ByteSize = 4 := by decide
    omega
  have h2 : (sample.to_json unnamed ++ ",").utf8ByteSize = 4029 := by
    rw [sample_entry_size]
    have : unnamed.description.utf8ByteSize = 4000 := long_text_size
    have hn : unnamed.name.utf8ByteSize = 0 := by decide
    omega
  have hw : wide.user_only = false := rfl
  have hu : unnamed.user_only = false := rfl
  have hname : unnamed.name = "" := rfl
  unfold GetToolsList.run wide_registry
  rw [show "".isEmpty = true from rfl]
  simp only [GetToolsList.scan, utf8ByteSize_append, h0, h1, h2, hw, hu, hname]
  simp

theorem wide_reply (id : Int) :
    GetToolsList.reply sample wide_registry id "" true =
      Reply.result id ("\x7b\"tools\":[" ++ sample.to_json wide ++ "]\x7d") := by
  have hback : (("\x7b\"tools\":[" ++ sample.to_json wide).back == '[') = false := by
    have hdata : ("\x7b\"tools\":[" ++ sample.to_json wide).data =
        ("\x7b\"tools\":[".data ++ ("\x7b\"name\":\"" ++ wide.name ++ "\",\"description\":\"" ++
          wide.description).data ++ ['"']) ++ ['\x7d'] := by
      simp [sample, String.data_append]
    rw [back_of_data _ _ _ hdata]
    decide
  have hempty : "".isEmpty = true := rfl
  unfold GetToolsList.reply
  simp only [wide_run, pop_comma_entry, hback, hempty]
  simp

theorem wide_follow :
    follow_cursor sample wide_registry true 3 "" = Listing.pages [[wide]] := by
  have hempty : "".isEmpty = true := rfl
  rw [follow_cursor, wide_reply]
  simp only [wide_run, hempty, if_true]

theorem scan_entries (to_json : McpTool → String) (cursor : String) (flag : Bool) :
    ∀ (rest : List McpTool) (found : Bool) (json : String) (added : List McpTool),
      ∃ new : List McpTool,
        (GetToolsList.scan to_json cursor flag rest found json added).added = added ++ new ∧
        (GetToolsList.scan to_json cursor flag rest found json added).json =
          json ++ entries to_json new ∧
        ∀ t ∈ new, t ∈ rest ∧ visible flag t = true := by
  intro rest
  induction rest with
  | nil =>
    intro found json added
    exact ⟨[], by simp [GetToolsList.scan], by simp [GetToolsList.scan, entries], by simp⟩
  | cons it rest ih =>
    intro found json added
    rw [GetToolsList.scan]
    split
    · obtain ⟨new, h1, h2, h3⟩ := ih false json added
      exact ⟨new, h1, h2, fun t ht => ⟨List.mem_cons_of_mem it (h3 t ht).1, (h3 t ht).2⟩⟩
    · split
      · obtain ⟨new, h1, h2, h3⟩ := ih true json added
        exact ⟨new, h1, h2, fun t ht => ⟨List.mem_cons_of_mem it (h3 t ht).1, (h3 t ht).2⟩⟩
      · rename_i hvis
        have hv : visible flag it = true := by
          unfold visible
          cases flag <;> cases hu : it.user_only <;> simp_all
        dsimp only
        split
        · exact ⟨[], by simp, by simp [entries], by simp⟩
        · obtain ⟨new, h1, h2, h3⟩ := ih true (json ++ (to_json it ++ ",")) (added ++ [it])
          refine ⟨it :: new, by simpa using h1, by simpa [entries, String.append_assoc] using h2, ?_⟩
          intro t ht
          rcases List.mem_cons.mp ht with rfl | ht
          · exact ⟨List.mem_cons_self _ _, hv⟩
          · exact ⟨List.mem_cons_of_mem it (h3 t ht).1, (h3 t ht).2⟩

theorem run_entries (to_json : McpTool → String) (s : McpServer) (cursor : String)
    (flag : Bool) :
    (GetToolsList.run to_json s cursor flag).json =
      "\x7b\"tools\":[" ++ entries to_json (GetToolsList.run to_json s cursor flag).added ∧
    ∀ t ∈ (GetToolsList.run to_json s cursor flag).added, t ∈ s.tools_ ∧ visible flag t = true := by
  obtain ⟨new, h1, h2, h3⟩ :=
    scan_entries to_json cursor flag s.tools_ cursor.isEmpty "\x7b\"tools\":[" []
  unfold GetToolsList.run
  rw [h1, h2]
  exact ⟨rfl, h3⟩

theorem reply_result_body (c : Collaborators) (s : McpServer) (id : Int) (cursor : String)
    (flag : Bool) (id1 : Int) (body : String)
    (h : GetToolsList.reply c s id cursor flag = Reply.result id1 body) :
    body = pop_comma ("\x7b\"tools\":[" ++
        entries c.to_json (GetToolsList.run c.to_json s cursor flag).added) ++ "]\x7d" ∨
    body = pop_comma ("\x7b\"tools\":[" ++
        entries c.to_json (GetToolsList.run c.to_json s cursor flag).added) ++
      "],\"nextCursor\":\"" ++ (GetToolsList.run c.to_json s cursor flag).next_cursor ++ "\"\x7d" := by
  rw [← (run_entries c.to_json s cursor flag).1]
  unfold GetToolsList.reply at h
  simp only at h
  split at h
  · simp at h
  · split at h
    · left
      simp at h
      exact h.2.symm
    · right
      simp at h
      exact h.2.symm

theorem tools_list_without_flag (c : Collaborators) (s : McpServer) (id_int : Int)
    (params : Option cJSON)
    (hflag : cJSON_GetObjectItem params "withUserTools" ≠ some (cJSON.bool true)) :
    tools_list c s id_int params =
      GetToolsList c s id_int (tools_list.cursor_str params) false := by
  have h : tools_list.list_user_only_tools params = false := by
    unfold tools_list.list_user_only_tools
    split
    · rename_i b hb
      cases b
      · rfl
      · exact absurd hb hflag
    · rfl
  unfold tools_list
  rw [h]

theorem ParseMessage_tools_list (c : Collaborators) (s : McpServer) (json : cJSON)
    (hmethod : cJSON_GetObjectItem (some json) "method" = some (cJSON.string "tools/list")) :
    ParseMessage c s json = Outcome.nothing s ∨
    ∃ id_int, ParseMessage c s json =
      tools_list c s id_int (cJSON_GetObjectItem (some json) "params") := by
  have h1 : "notifications".isPrefixOf "tools/list" = false := by decide
  have h2 : ("tools/list" == "initialize") = false := by decide
  unfold ParseMessage
  rw [hmethod]
  simp only [h1, h2, Bool.false_eq_true, if_false]
  split
  · split
    · exact Or.inl rfl
    · split
      · exact Or.inl rfl
      · split
        · rename_i id_int _
          right
          exact ⟨id_int, by simp⟩
        · exact Or.inl rfl
  · exact Or.inl rfl

set_option maxRecDepth 20000 in
theorem registry_reply :
    GetToolsList.reply sample registry 0 "" true =
      Reply.result 0 (pop_comma (GetToolsList.run sample.to_json registry "" true).json ++
        "]\x7d") := by
  decide

set_option maxRecDepth 20000 in
theorem registry_next :
    (GetToolsList.run sample.to_json registry "" true).next_cursor = "" := by
  decide

/-! ## Where the listing starts -/

theorem scan_search (to_json : McpTool → String) (cursor : String) (flag : Bool)
    (json : String) (added : List McpTool) :
    ∀ tools : List McpTool,
      GetToolsList.scan to_json cursor flag tools false json added =
        GetToolsList.scan to_json cursor flag
          (tools.dropWhile (fun t => !(t.name == cursor))) true json added := by
  intro tools
  induction tools with
  | nil => simp [GetToolsList.scan]
  | cons q rest ih =>
    cases hq : (q.name == cursor)
    · rw [List.dropWhile_cons_of_pos (by simp [hq]), ← ih, GetToolsList.scan]
      simp [hq]
    · rw [List.dropWhile_cons_of_neg (by simp [hq])]
      exact scan_at_cursor to_json cursor flag q rest json added (by simpa using hq)

theorem run_start (to_json : McpTool → String) (s : McpServer) (cursor : String) (flag : Bool) :
    GetToolsList.run to_json s cursor flag =
      GetToolsList.scan to_json cursor flag (start_position s.tools_ cursor) true
        "\x7b\"tools\":[" [] := by
  unfold GetToolsList.run start_position
  cases hc : cursor.isEmpty
  · simp only [Bool.false_eq_true, if_false]
    exact scan_search to_json cursor flag _ _ s.tools_
  · simp

theorem start_position_subset (tools : List McpTool) (cursor : String) :
    ∀ t ∈ start_position tools cursor, t ∈ tools := by
  intro t ht
  unfold start_position at ht
  split at ht
  · exact ht
  · exact (List.dropWhile_sublist _).subset ht

theorem start_position_of_split (tools A B : List McpTool) (t : McpTool) (cursor : String)
    (hc : cursor ≠ "") (hsplit : tools = A ++ t :: B) (hA : ∀ q ∈ A, q.name ≠ cursor)
    (ht : t.name = cursor) : start_position tools cursor = t :: B := by
  unfold start_position
  rw [isEmpty_eq_false cursor hc, hsplit]
  simp only [Bool.false_eq_true, if_false]
  clear hsplit
  induction A with
  | nil => simp [ht]
  | cons q A ih =>
    rw [List.cons_append, List.dropWhile_cons_of_pos
      (by simpa using hA q (List.mem_cons_self q A))]
    exact ih (fun r hr => hA r (List.mem_cons_of_mem q hr))

theorem start_position_of_mem (tools : List McpTool) (cursor : String) (hc : cursor ≠ "")
    (h : ∃ t ∈ tools, t.name = cursor) :
    ∃ A t B, tools = A ++ t :: B ∧ (∀ q ∈ A, q.name ≠ cursor) ∧ t.name = cursor ∧
      start_position tools cursor = t :: B := by
  obtain ⟨A, t, B, hsplit, hA, ht, _⟩ := find_tool_first { tools_ := tools } cursor h
  exact ⟨A, t, B, hsplit, hA, ht, start_position_of_split tools A B t cursor hc hsplit hA ht⟩

theorem start_position_unknown (tools : List McpTool) (cursor : String) (hc : cursor ≠ "")
    (h : ∀ t ∈ tools, t.name ≠ cursor) : start_position tools cursor = [] := by
  unfold start_position
  rw [isEmpty_eq_false cursor hc]
  simp only [Bool.false_eq_true, if_false]
  rw [List.dropWhile_eq_nil_iff]
  intro t ht
  simpa using h t ht

theorem scan_hidden (to_json : McpTool → String) (cursor : String) (flag : Bool)
    (R : List McpTool) (json : String) (added : List McpTool) :
    ∀ pre : List McpTool, (∀ q ∈ pre, visible flag q = false) →
      GetToolsList.scan to_json cursor flag (pre ++ R) true json added =
        GetToolsList.scan to_json cursor flag R true json added := by
  intro pre
  induction pre with
  | nil => intro _; rfl
  | cons q pre ih =>
    intro h
    have hq : (!flag && q.user_only) = true := by
      have := h q (List.mem_cons_self q pre)
      unfold visible at this
      cases flag <;> cases hu : q.user_only <;> simp_all
    rw [List.cons_append, GetToolsList.scan]
    simp only [Bool.not_true, Bool.false_and, Bool.false_eq_true, if_false, hq, if_true]
    exact ih (fun r hr => h r (List.mem_cons_of_mem q hr))

theorem scan_visible (to_json : McpTool → String) (cursor : String) (flag : Bool)
    (t : McpTool) (rest : List McpTool) (json : String) (added : List McpTool)
    (hv : visible flag t = true) :
    GetToolsList.scan to_json cursor flag (t :: rest) true json added =
      if json.utf8ByteSize + (to_json t ++ ",").utf8ByteSize + 30 > 8000 then
        { json := json, next_cursor := t.name, added := added }
      else GetToolsList.scan to_json cursor flag rest true (json ++ (to_json t ++ ","))
        (added ++ [t]) := by
  have hq : (!flag && t.user_only) = false := by
    unfold visible at hv
    cases flag <;> cases hu : t.user_only <;> simp_all
  rw [GetToolsList.scan]
  simp only [Bool.not_true, Bool.false_and, Bool.false_eq_true, if_false, hq]

theorem header_size : "\x7b\"tools\":[".utf8ByteSize = 10 := by decide

theorem reply_result_form (c : Collaborators) (s : McpServer) (id : Int) (cursor : String)
    (flag : Bool) (id1 : Int) (body : String)
    (h : GetToolsList.reply c s id cursor flag = Reply.result id1 body) :
    id1 = id ∧
    ((GetToolsList.run c.to_json s cursor flag).next_cursor.isEmpty = true →
      body = pop_comma (GetToolsList.run c.to_json s cursor flag).json ++ "]\x7d") ∧
    ((GetToolsList.run c.to_json s cursor flag).next_cursor.isEmpty = false →
      body = pop_comma (GetToolsList.run c.to_json s cursor flag).json ++
        "],\"nextCursor\":\"" ++ (GetToolsList.run c.to_json s cursor flag).next_cursor ++
        "\"\x7d") := by
  unfold GetToolsList.reply at h
  simp only at h
  split at h
  · simp at h
  · split at h
    · rename_i hempty
      simp at h
      exact ⟨h.1.symm, fun _ => h.2.symm, fun hne => by rw [hempty] at hne; simp at hne⟩
    · rename_i hempty
      simp at h
      exact ⟨h.1.symm, fun he => absurd he hempty, fun _ => h.2.symm⟩

theorem brim_run :
    GetToolsList.run sample.to_json brim_registry "" true =
      { json := "\x7b\"tools\":[" ++ (sample.to_json brim ++ ","),
        next_cursor := "self.audio_speaker.set_volume", added := [brim] } := by
  have hfill : filler.utf8ByteSize = 7927 := by
    unfold filler
    rw [String.utf8ByteSize_mk, utf8Len_replicate]
  have h1 : (sample.to_json brim ++ ",").utf8ByteSize = 7960 := by
    rw [sample_entry_size]
    have : brim.description.utf8ByteSize = 7927 := hfill
    have hn : brim.name.utf8ByteSize = 4 := by decide
    omega
  have h2 : (sample.to_json set_volume ++ ",").utf8ByteSize = 94 := by
    rw [sample_entry_size]
    decide
  have hb : brim.user_only = false := rfl
  have hv : set_volume.user_only = false := rfl
  have hname : set_volume.name = "self.audio_speaker.set_volume" := rfl
  unfold GetToolsList.run brim_registry
  rw [show "".isEmpty = true from rfl]
  simp only [GetToolsList.scan, utf8ByteSize_append, header_size, h1, h2, hb, hv, hname]
  simp

theorem brim_reply (id : Int) :
    GetToolsList.reply sample brim_registry id "" true =
      Reply.result id ("\x7b\"tools\":[" ++ sample.to_json brim ++ "],\"nextCursor\":\"" ++
        "self.audio_speaker.set_volume" ++ "\"\x7d") := by
  have hback : (("\x7b\"tools\":[" ++ sample.to_json brim).back == '[') = false := by
    have hdata : ("\x7b\"tools\":[" ++ sample.to_json brim).data =
        ("\x7b\"tools\":[".data ++ ("\x7b\"name\":\"" ++ brim.name ++ "\",\"description\":\"" ++
          brim.description).data ++ ['"']) ++ ['\x7d'] := by
      simp [sample, String.data_append]
    rw [back_of_data _ _ _ hdata]
    decide
  have hempty : "self.audio_speaker.set_volume".isEmpty = false := by decide
  unfold GetToolsList.reply
  simp only [brim_run, pop_comma_entry, hback, hempty]
  simp

theorem brim_body_size :
    ("\x7b\"tools\":[" ++ sample.to_json brim ++ "],\"nextCursor\":\"" ++
      "self.audio_speaker.set_volume" ++ "\"\x7d").utf8ByteSize = 8016 := by
  have hfill : filler.utf8ByteSize = 7927 := by
    unfold filler
    rw [String.utf8ByteSize_mk, utf8Len_replicate]
  have h1 : (sample.to_json brim ++ ",").utf8ByteSize = 7960 := by
    rw [sample_entry_size]
    have : brim.description.utf8ByteSize = 7927 := hfill
    have hn : brim.name.utf8ByteSize = 4 := by decide
    omega
  have hcomma : ",".utf8ByteSize = 1 := by decide
  have h2 : "],\"nextCursor\":\"".utf8ByteSize = 16 := by decide
  have h3 : "self.audio_speaker.set_volume".utf8ByteSize = 29 := by decide
  have h4 : "\"\x7d".utf8ByteSize = 2 := by decide
  rw [utf8ByteSize_append, hcomma] at h1
  simp only [utf8ByteSize_append, header_size, h2, h3, h4]
  omega

theorem giant_entry_size : (sample.to_json giant).utf8ByteSize = 7960 := by
  have hfill : filler.utf8ByteSize = 7927 := by
    unfold filler
    rw [String.utf8ByteSize_mk, utf8Len_replicate]
  have h := sample_entry_size giant
  have hd : giant.description.utf8ByteSize = 7927 := hfill
  have hn : giant.name.utf8ByteSize = 5 := by decide
  have hcomma : ",".utf8ByteSize = 1 := by decide
  rw [utf8ByteSize_append, hcomma, hd, hn] at h
  omega

set_option maxRecDepth 20000 in
theorem registry_page_at_echo :
    (GetToolsList.run sample.to_json registry "echo" true).added.map (fun t => t.name) =
      ["echo", "self.audio_speaker.set_volume", "self.screen.snapshot"] := by
  decide

set_option maxRecDepth 20000 in
theorem registry_reply_at_echo :
    (GetToolsList sample registry 1 "echo" true).sent =
      [Reply.result 1 ("\x7b\"tools\":[" ++ sample.to_json echo ++ "," ++
        sample.to_json set_volume ++ "," ++ sample.to_json snapshot ++ "]\x7d")] := by
  decide

set_option maxRecDepth 20000 in
theorem registry_public_reply :
    GetToolsList.reply sample registry 1 "" false =
      Reply.result 1 ("\x7b\"tools\":[" ++ sample.to_json echo ++ "," ++
        sample.to_json set_volume ++ "]\x7d") := by
  decide

/-! ## The router -/

theorem ParseMessage_accepted (c : Collaborators) (s : McpServer) (json : cJSON)
    (method_str : String) (id_int : Int)
    (hver : cJSON_GetObjectItem (some json) "jsonrpc" = some (cJSON.string "2.0"))
    (hmethod : cJSON_GetObjectItem (some json) "method" = some (cJSON.string method_str))
    (hnot : "notifications".isPrefixOf method_str = false)
    (hparams : params_accepted (cJSON_GetObjectItem (some json) "params") = true)
    (hid : cJSON_GetObjectItem (some json) "id" = some (cJSON.number id_int)) :
    ParseMessage c s json =
      dispatch c s id_int method_str (cJSON_GetObjectItem (some json) "params") := by
  have hp : ((cJSON_GetObjectItem (some json) "params").isSome &&
      !cJSON_IsObject (cJSON_GetObjectItem (some json) "params")) = false := by
    unfold params_accepted at hparams
    cases hx : ((cJSON_GetObjectItem (some json) "params").isSome &&
      !cJSON_IsObject (cJSON_GetObjectItem (some json) "params"))
    · rfl
    · rw [hx] at hparams
      simp at hparams
  unfold ParseMessage dispatch
  rw [hver, hmethod, hid]
  simp only [hnot, hp, bne_self_eq_false, Bool.false_eq_true, if_false]

theorem ParseMessage_bad_version (c : Collaborators) (s : McpServer) (json : cJSON)
    (h : cJSON_GetObjectItem (some json) "jsonrpc" ≠ some (cJSON.string "2.0")) :
    ParseMessage c s json = Outcome.nothing s := by
  unfold ParseMessage
  split
  · rename_i version hv
    split
    · rfl
    · rename_i hne
      have : version = "2.0" := by simpa using hne
      rw [this] at hv
      exact absurd hv h
  · rfl

theorem ParseMessage_bad_method (c : Collaborators) (s : McpServer) (json : cJSON)
    (h : cJSON_IsString (cJSON_GetObjectItem (some json) "method") = false) :
    ParseMessage c s json = Outcome.nothing s := by
  unfold ParseMessage
  split
  · split
    · rfl
    · split
      · rename_i method_str hm
        rw [hm] at h
        simp [cJSON_IsString] at h
      · rfl
  · rfl

theorem ParseMessage_bad_id (c : Collaborators) (s : McpServer) (json : cJSON)
    (h : cJSON_IsNumber (cJSON_GetObjectItem (some json) "id") = false) :
    ParseMessage c s json = Outcome.nothing s := by
  unfold ParseMessage
  split
  · split
    · rfl
    · split
      · split
        · rfl
        · dsimp only
          split
          · rfl
          · split
            · rename_i id_int hi
              rw [hi] at h
              simp [cJSON_IsNumber] at h
            · rfl
      · rfl
  · rfl

theorem DoToolCall_outcome (c : Collaborators) (s : McpServer) (id : Int) (tool_name : String)
    (a : Option cJSON) :
    (∃ m, DoToolCall c s id tool_name a = Outcome.reply s (Reply.error id m)) ∨
    (∃ w, (DoToolCall c s id tool_name a).sent = [] ∧
      (DoToolCall c s id tool_name a).scheduled = [w] ∧ w.id = id) := by
  cases hfind : find_tool s tool_name with
  | none =>
    left
    unfold DoToolCall
    rw [hfind]
    exact ⟨_, rfl⟩
  | some tool =>
    cases hb : bind_arguments c.what a tool.properties with
    | missing n => exact Or.inl ⟨_, DoToolCall_of_missing c s id tool_name a tool n hfind hb⟩
    | thrown e => exact Or.inl ⟨_, DoToolCall_of_thrown c s id tool_name a tool e hfind hb⟩
    | bound arguments =>
      right
      rw [DoToolCall_of_bound c s id tool_name a tool arguments hfind hb]
      exact ⟨_, rfl, rfl, rfl⟩

theorem tools_call_outcome (c : Collaborators) (s : McpServer) (id : Int)
    (params : Option cJSON) :
    (∃ m, tools_call c s id params = Outcome.reply s (Reply.error id m)) ∨
    (∃ w, (tools_call c s id params).sent = [] ∧
      (tools_call c s id params).scheduled = [w] ∧ w.id = id) := by
  unfold tools_call
  split
  · exact Or.inl ⟨_, rfl⟩
  · split
    · dsimp only
      split
      · exact Or.inl ⟨_, rfl⟩
      · exact DoToolCall_outcome c s id _ _
    · exact Or.inl ⟨_, rfl⟩

theorem run_id (c : Collaborators) (w : WorkItem) :
    ∃ r, WorkItem.run c w = [r] ∧ r.id = w.id := by
  unfold WorkItem.run
  cases w.tool.callback w.arguments with
  | ok v => exact ⟨_, rfl, rfl⟩
  | error e => exact ⟨_, rfl, rfl⟩

theorem reply_id (c : Collaborators) (s : McpServer) (id : Int) (cursor : String)
    (flag : Bool) : (GetToolsList.reply c s id cursor flag).id = id := by
  unfold GetToolsList.reply
  dsimp only
  split
  · rfl
  · split <;> rfl

theorem dispatch_answers (c : Collaborators) (s : McpServer) (id : Int) (method_str : String)
    (params : Option cJSON) :
    ∃ r ∈ (dispatch c s id method_str params).sent ++
        (((dispatch c s id method_str params).scheduled.map (WorkItem.run c)).flatten),
      r.id = id := by
  unfold dispatch
  split
  · exact ⟨_, List.mem_append_left _ (List.mem_cons_self _ _), rfl⟩
  · split
    · exact ⟨GetToolsList.reply c s id (tools_list.cursor_str params)
        (tools_list.list_user_only_tools params),
        by simp [tools_list, GetToolsList, Outcome.reply], reply_id c s id _ _⟩
    · split
      · rcases tools_call_outcome c s id params with ⟨m, hm⟩ | ⟨w, hsent, hsched, hw⟩
        · rw [hm]
          exact ⟨Reply.error id m, by simp [Outcome.reply], rfl⟩
        · obtain ⟨r, hr, hrid⟩ := run_id c w
          rw [hsent, hsched]
          exact ⟨r, by simp [hr], by rw [hrid, hw]⟩
      · exact ⟨_, List.mem_append_left _ (List.mem_cons_self _ _), rfl⟩

theorem dispatch_not_nothing (c : Collaborators) (s : McpServer) (id : Int)
    (method_str : String) (params : Option cJSON) :
    dispatch c s id method_str params ≠ Outcome.nothing s := by
  intro h
  obtain ⟨r, hr, _⟩ := dispatch_answers c s id method_str params
  rw [h] at hr
  simp [Outcome.nothing] at hr

/-! ## Decoding an error reply -/

theorem expect_append (pre rest : List Char) : expect pre (pre ++ rest) = some rest := by
  induction pre with
  | nil => cases rest <;> rfl
  | cons e pre ih =>
    rw [List.cons_append, expect]
    simp [ih]

theorem read_string_plain (rest : List Char) :
    ∀ (msg : List Char) (fuel : Nat) (text : List Char),
      (∀ ch ∈ msg, ch ≠ '"' ∧ ch ≠ '\\' ∧ 32 ≤ ch.toNat) → msg.length < fuel →
      read_string fuel (msg ++ '"' :: rest) text = some (text ++ msg, rest) := by
  intro msg
  induction msg with
  | nil =>
    intro fuel text _ hlen
    cases fuel with
    | zero => omega
    | succ fuel => simp [read_string]
  | cons ch msg ih =>
    intro fuel text hplain hlen
    cases fuel with
    | zero => omega
    | succ fuel =>
      obtain ⟨h1, h2, h3⟩ := hplain ch (List.mem_cons_self ch msg)
      have h4 : ¬ ch.toNat < 32 := by omega
      rw [List.cons_append, read_string.eq_def]
      simp only [h1, h2, h4, if_false]
      rw [ih fuel (text ++ [ch]) (fun x hx => hplain x (List.mem_cons_of_mem ch hx))
        (by simp at hlen; omega)]
      simp

theorem ReplyError_data (id : Int) (message : String) :
    (ReplyError id message).data =
      ("\x7b\"jsonrpc\":\"2.0\",\"id\":" ++ toString id ++
        ",\"error\":\x7b\"message\":\"").data ++ (message.data ++ '"' :: ['\x7d', '\x7d']) := by
  unfold ReplyError
  simp [String.data_append]

/-! ## Scheduling and registration -/

theorem find_tool_append_new (s : McpServer) (tool : McpTool)
    (h : ∀ t ∈ s.tools_, t.name ≠ tool.name) :
    find_tool { tools_ := s.tools_ ++ [tool] } tool.name = some tool := by
  unfold find_tool
  rw [List.find?_append, (List.find?_eq_none).mpr (by intro t ht; simpa using h t ht)]
  simp

theorem AddTool_new (s : McpServer) (tool : McpTool)
    (h : ∀ t ∈ s.tools_, t.name ≠ tool.name) :
    AddTool s tool = { tools_ := s.tools_ ++ [tool] } := by
  unfold AddTool
  rw [if_neg]
  rw [List.any_eq_true]
  rintro ⟨t, ht, hn⟩
  exact h t ht (by simpa using hn)

theorem find_tool_relabel (user_only : McpTool → Bool) (s : McpServer) (tool_name : String) :
    find_tool (relabel user_only s) tool_name =
      (find_tool s tool_name).map (fun t => t.set_user_only (user_only t)) := by
  unfold find_tool relabel
  simp only
  induction s.tools_ with
  | nil => rfl
  | cons t rest ih =>
    rw [List.map_cons, List.find?_cons, List.find?_cons]
    have hname : (t.set_user_only (user_only t)).name = t.name := rfl
    rw [hname]
    cases (t.name == tool_name)
    · simpa using ih
    · rfl

theorem AddTool_nodup (s : McpServer) (tool : McpTool)
    (h : (s.tools_.map (fun t => t.name)).Nodup) :
    ((AddTool s tool).tools_.map (fun t => t.name)).Nodup := by
  unfold AddTool
  split
  · exact h
  · rename_i hnew
    simp only [List.map_append, List.map_cons, List.map_nil]
    rw [List.nodup_append]
    refine ⟨h, List.nodup_singleton _, ?_⟩
    intro n hn hn1
    rw [List.mem_singleton] at hn1
    obtain ⟨t, ht, htn⟩ := List.mem_map.mp hn
    apply hnew
    rw [List.any_eq_true]
    have htn1 : t.name = n := htn
    exact ⟨t, ht, by simp [htn1, hn1]⟩

theorem foldl_AddTool_new :
    ∀ (l : List McpTool) (s : McpServer), (l.map (fun t => t.name)).Nodup →
      (∀ t ∈ l, ∀ q ∈ s.tools_, q.name ≠ t.name) →
      l.foldl AddTool s = { tools_ := s.tools_ ++ l } := by
  intro l
  induction l with
  | nil => intro s _ _; simp
  | cons t l ih =>
    intro s hnd hnew
    rw [List.map_cons, List.nodup_cons] at hnd
    rw [List.foldl_cons, AddTool_new s t (fun q hq => hnew t (List.mem_cons_self t l) q hq),
      ih _ hnd.2]
    · simp
    · intro r hr q hq
      simp only [List.mem_append, List.mem_singleton] at hq
      rcases hq with hq | hq
      · exact hnew r (List.mem_cons_of_mem t hr) q hq
      · rw [hq]
        intro heq
        exact hnd.1 (by rw [heq]; exact List.mem_map_of_mem (fun t => t.name) hr)

theorem common_tools_names (b : Board) : ((common_tools b).map (fun t => t.name)).Nodup := by
  obtain ⟨backlight, have_lvgl, theme, camera, handler⟩ := b
  cases backlight <;> cases have_lvgl <;> cases theme <;> cases camera <;>
    simp [common_tools, McpTool.new]

theorem common_tools_registered (b : Board) :
    (common_tools b).foldl AddTool { tools_ := [] } = { tools_ := common_tools b } := by
  rw [foldl_AddTool_new (common_tools b) { tools_ := [] } (common_tools_names b)
    (by intro t _ q hq; simp at hq)]
  simp

theorem lookup_unmatched (l1 l2 : List (String × cJSON)) (k : String) (v : cJSON)
    (name : String) (h : case_insensitive_eq name k = false) :
    cJSON_GetObjectItem (some (cJSON.object (l1 ++ (k, v) :: l2))) name =
      cJSON_GetObjectItem (some (cJSON.object (l1 ++ l2))) name := by
  unfold cJSON_GetObjectItem
  simp only [List.find?_append, List.find?_cons, h]

theorem bind_argument_congr (what : Property → Int → String) (x y : List (String × cJSON))
    (p : Property)
    (h : cJSON_GetObjectItem (some (cJSON.object x)) p.name =
      cJSON_GetObjectItem (some (cJSON.object y)) p.name) :
    bind_argument what (some (cJSON.object x)) p =
      bind_argument what (some (cJSON.object y)) p := by
  unfold bind_argument
  rw [h]
  rfl

theorem bind_arguments_congr (what : Property → Int → String) (x y : List (String × cJSON)) :
    ∀ ps : PropertyList,
      (∀ p ∈ ps, cJSON_GetObjectItem (some (cJSON.object x)) p.name =
        cJSON_GetObjectItem (some (cJSON.object y)) p.name) →
      bind_arguments what (some (cJSON.object x)) ps =
        bind_arguments what (some (cJSON.object y)) ps := by
  intro ps
  induction ps with
  | nil => intro _; rfl
  | cons p rest ih =>
    intro h
    rw [bind_arguments, bind_arguments,
      bind_argument_congr what x y p (h p (List.mem_cons_self p rest)),
      ih (fun q hq => h q (List.mem_cons_of_mem p hq))]

theorem DoToolCall_congr (c : Collaborators) (s : McpServer) (id : Int) (tool_name : String)
    (x y : List (String × cJSON))
    (h : ∀ tool, find_tool s tool_name = some tool →
      bind_arguments c.what (some (cJSON.object x)) tool.properties =
        bind_arguments c.what (some (cJSON.object y)) tool.properties) :
    DoToolCall c s id tool_name (some (cJSON.object x)) =
      DoToolCall c s id tool_name (some (cJSON.object y)) := by
  unfold DoToolCall
  cases hfind : find_tool s tool_name with
  | none => rfl
  | some tool =>
    simp only [DoToolCall.bind_and_schedule]
    rw [h tool hfind]

/-! ## The JPEG search of `Capture` -/

theorem find_start_some (data : List Nat) :
    ∀ (remaining i s : Nat), Capture.find_start data remaining i = some s →
      i ≤ s ∧ s < i + remaining ∧ data.getD s 0 = 0xFF ∧ data.getD (s + 1) 0 = 0xD8 ∧
      ∀ j, i ≤ j → j < s → ¬ (data.getD j 0 = 0xFF ∧ data.getD (j + 1) 0 = 0xD8) := by
  intro remaining
  induction remaining with
  | zero => intro i s h; simp [Capture.find_start] at h
  | succ remaining ih =>
    intro i s h
    rw [Capture.find_start] at h
    split at h
    · rename_i hm
      have hs : i = s := by simpa using h
      subst hs
      exact ⟨Nat.le_refl _, by omega, hm.1, hm.2, fun j h1 h2 => by omega⟩
    · rename_i hm
      obtain ⟨h1, h2, h3, h4, h5⟩ := ih (i + 1) s h
      refine ⟨by omega, by omega, h3, h4, ?_⟩
      intro j hj1 hj2
      by_cases hji : j = i
      · rw [hji]; exact hm
      · exact h5 j (by omega) hj2

theorem find_start_none (data : List Nat) :
    ∀ (remaining i : Nat), Capture.find_start data remaining i = none →
      ∀ j, i ≤ j → j < i + remaining →
        ¬ (data.getD j 0 = 0xFF ∧ data.getD (j + 1) 0 = 0xD8) := by
  intro remaining
  induction remaining with
  | zero => intro i _ j h1 h2; omega
  | succ remaining ih =>
    intro i h j hj1 hj2
    rw [Capture.find_start] at h
    split at h
    · simp at h
    · rename_i hm
      by_cases hji : j = i
      · rw [hji]; exact hm
      · exact ih (i + 1) h j (by omega) (by omega)

theorem find_end_some (data : List Nat) (jpeg_start : Nat) :
    ∀ (i e : Nat), Capture.find_end data jpeg_start i = some e →
      jpeg_start + 3 ≤ e ∧ e ≤ i + 1 ∧ data.getD (e - 2) 0 = 0xFF ∧
      data.getD (e - 1) 0 = 0xD9 ∧
      ∀ j, e ≤ j → j ≤ i → ¬ (data.getD (j - 1) 0 = 0xFF ∧ data.getD j 0 = 0xD9) := by
  intro i
  induction i with
  | zero => intro e h; simp [Capture.find_end] at h
  | succ i ih =>
    intro e h
    rw [Capture.find_end] at h
    split at h
    · rename_i hgt
      split at h
      · rename_i hm
        have he : i + 1 + 1 = e := by simpa using h
        subst he
        exact ⟨by omega, by omega, hm.1, hm.2, fun j h1 h2 => by omega⟩
      · rename_i hm
        obtain ⟨h1, h2, h3, h4, h5⟩ := ih e h
        refine ⟨h1, by omega, h3, h4, ?_⟩
        intro j hj1 hj2
        by_cases hji : j = i + 1
        · rw [hji]; exact hm
        · exact h5 j hj1 (by omega)
    · simp at h

theorem find_end_none (data : List Nat) (jpeg_start : Nat) :
    ∀ i : Nat, Capture.find_end data jpeg_start i = none →
      ∀ j, jpeg_start + 1 < j → j ≤ i →
        ¬ (data.getD (j - 1) 0 = 0xFF ∧ data.getD j 0 = 0xD9) := by
  intro i
  induction i with
  | zero => intro _ j h1 h2; omega
  | succ i ih =>
    intro h j hj1 hj2
    rw [Capture.find_end] at h
    split at h
    · split at h
      · simp at h
      · rename_i hm
        by_cases hji : j = i + 1
        · rw [hji]; exact hm
        · exact ih h j hj1 (by omega)
    · omega

theorem getD_slice (data : List Nat) (s m k : Nat) (hk : k < m) :
    ((data.drop s).take m).getD k 0 = data.getD (s + k) 0 := by
  simp [List.getD_eq_getElem?_getD, List.getElem?_take, hk, List.getElem?_drop]

theorem length_slice (data : List Nat) (s e : Nat) (he : e ≤ data.length) :
    ((data.drop s).take (e - s)).length = e - s := by
  simp
  omega

/-! ## The properties of the specification -/

/-- C2: a call to a registered tool whose supplied arguments all have the declared type and
lie within the declared bounds, and which supplies every property that has no default, sends
no reply and schedules exactly one work item; its property list has the schema's names in the
schema's order, and each property holds the caller's value when one was supplied and the
stored default otherwise. -/
theorem DoToolCall_binds_valid_call (c : Collaborators) (s : McpServer) (id : Int)
    (tool_name : String) (a : Option cJSON) (tool : McpTool)
    (hfind : find_tool s tool_name = some tool)
    (htyped : ∀ p ∈ tool.properties, ∀ j, cJSON_GetObjectItem a p.name = some j →
      has_typed_value a p = true)
    (hrange : ∀ p ∈ tool.properties, out_of_range a p = false)
    (hcomplete : ∀ p ∈ tool.properties, p.has_default_value = false →
      has_typed_value a p = true) :
    ∃ arguments : PropertyList,
      DoToolCall c s id tool_name a =
        { server := s, sent := [],
          scheduled := [{ id := id, tool := tool, arguments := arguments }], vision := [] } ∧
      arguments.map (fun q => q.name) = tool.properties.map (fun p => p.name) ∧
      List.Forall₂ (bound_as_called a) tool.properties arguments := by
  obtain ⟨arguments, hb⟩ := bind_arguments_complete c.what a tool.properties (by
    intro p hp
    refine ⟨hrange p hp, ?_⟩
    cases hd : p.has_default_value
    · exact Or.inr (hcomplete p hp hd)
    · exact Or.inl rfl)
  have hall := bind_arguments_bound c.what a _ _ hb
  have hcalled : List.Forall₂ (bound_as_called a) tool.properties arguments := by
    refine forall₂_imp_left _ _ _ _ hall ?_
    intro p hp q hq
    obtain ⟨_, _, hyes, hno⟩ := hq
    cases ht : has_typed_value a p
    · have hqp := hno ht
      subst hqp
      cases hj : cJSON_GetObjectItem a q.name with
      | none => exact bound_as_called_self a q hj
      | some j => rw [htyped q hp j hj] at ht; simp at ht
    · exact hyes ht
  refine ⟨arguments, DoToolCall_of_bound c s id tool_name a tool arguments hfind hb, ?_, hcalled⟩
  exact forall₂_map_eq _ _ _ (fun p q h => h.1) _ _ hcalled

/-- C2 (witness): `self.screen.snapshot` called with a `url` and no `quality` is scheduled
with the given url and the default quality 80. -/
theorem DoToolCall_binds_valid_call_witness :
    ∃ arguments : PropertyList,
      DoToolCall sample registry 7 "self.screen.snapshot"
          (some (cJSON.object [("url", cJSON.string "http://host/upload")])) =
        { server := registry, sent := [],
          scheduled := [{ id := 7, tool := snapshot, arguments := arguments }], vision := [] } ∧
      arguments.map (fun q => q.name) = snapshot.properties.map (fun p => p.name) ∧
      List.Forall₂ (bound_as_called (some (cJSON.object [("url", cJSON.string "http://host/upload")])))
        snapshot.properties arguments :=
  DoToolCall_binds_valid_call sample registry 7 "self.screen.snapshot"
    (some (cJSON.object [("url", cJSON.string "http://host/upload")])) snapshot rfl
    (by decide) (by decide) (by decide)


/-- C3: registering a tool whose name is already in the registry leaves the registry exactly
as it was, through `AddTool` (both overloads) and through `AddUserOnlyTool`, and the name
still resolves to the first-registered tool. -/
theorem AddTool_duplicate_name (s : McpServer) (name : String)
    (h : ∃ t ∈ s.tools_, t.name = name) :
    (∀ tool : McpTool, tool.name = name → AddTool s tool = s) ∧
    (∀ description properties callback,
      AddTool.named s name description properties callback = s) ∧
    (∀ description properties callback,
      AddUserOnlyTool s name description properties callback = s) ∧
    (∃ pre first post, s.tools_ = pre ++ first :: post ∧ (∀ q ∈ pre, q.name ≠ name) ∧
      first.name = name ∧
      ∀ tool : McpTool, tool.name = name → find_tool (AddTool s tool) name = some first) := by
  have hadd : ∀ tool : McpTool, tool.name = name → AddTool s tool = s := by
    intro tool htool
    unfold AddTool
    rw [if_pos]
    rw [List.any_eq_true]
    obtain ⟨t, ht, hn⟩ := h
    exact ⟨t, ht, by simp [hn, htool]⟩
  refine ⟨hadd, ?_, ?_, ?_⟩
  · intro description properties callback
    exact hadd _ rfl
  · intro description properties callback
    exact hadd _ rfl
  · obtain ⟨pre, first, post, hsplit, hpre, hname, hfind⟩ := find_tool_first s name h
    refine ⟨pre, first, post, hsplit, hpre, hname, ?_⟩
    intro tool htool
    rw [hadd tool htool, hfind]

/-- C3 (witness): a second `echo`, user-only and with another handler, does not replace the
first. -/
theorem AddTool_duplicate_name_witness :
    AddUserOnlyTool registry "echo" "Another echo" [] (fun _ => Except.error "replaced") =
      registry :=
  (AddTool_duplicate_name registry "echo" ⟨echo, by simp [registry], rfl⟩).2.2.1
    "Another echo" [] (fun _ => Except.error "replaced")

/-- C4 (amended): for a registry whose tool names are pairwise different and none of which is
empty, a client that starts from the empty cursor and follows `nextCursor` either meets an
error reply or, within as many calls as there are tools plus one, reaches a page without
`nextCursor`; the pages then concatenate to exactly the tools visible under the flag, each
once, in registry order. -/
theorem tools_list_pagination (c : Collaborators) (s : McpServer) (flag : Bool)
    (hnd : (s.tools_.map (fun t => t.name)).Nodup) (hnames : ∀ t ∈ s.tools_, t.name ≠ "") :
    (∃ m, follow_cursor c s flag (s.tools_.length + 1) "" = Listing.failed m) ∨
    (∃ ps, follow_cursor c s flag (s.tools_.length + 1) "" = Listing.pages ps ∧
      ps.flatten = s.tools_.filter (visible flag)) :=
  follow_cursor_from c s flag hnd hnames (s.tools_.length + 1) [] s.tools_ "" rfl
    (Nat.lt_succ_self _) (Or.inl ⟨rfl, rfl⟩)

/-- C4 (witness): the sample registry listed with user-only tools is one page holding the
three tools. -/
theorem tools_list_pagination_witness :
    ∃ ps, follow_cursor sample registry true (registry.tools_.length + 1) "" = Listing.pages ps ∧
      ps.flatten = registry.tools_.filter (visible true) := by
  rcases tools_list_pagination sample registry true (by decide) (by decide) with ⟨m, hm⟩ | h
  · have hm1 : follow_cursor sample registry true (3 + 1) "" = Listing.failed m := hm
    rw [follow_cursor, registry_reply] at hm1
    simp [registry_next, show "".isEmpty = true from rfl] at hm1
  · exact h

/-- C4 (counterexample): two tools with different names, the second one named by the empty
string, and entries that do not fit in one page together.  The first page holds `wide` and
stops at the second tool, whose name is the `next_cursor`; being empty it is not sent, the
page has no `nextCursor`, and the client is done without ever seeing the second tool. -/
theorem tools_list_pagination_counterexample :
    (wide_registry.tools_.map (fun t => t.name)).Nodup ∧
    (GetToolsList sample wide_registry 1 "" true).sent =
      [Reply.result 1 ("\x7b\"tools\":[" ++ sample.to_json wide ++ "]\x7d")] ∧
    follow_cursor sample wide_registry true 3 "" = Listing.pages [[wide]] ∧
    wide_registry.tools_.filter (visible true) = [wide, unnamed] ∧
    ([[wide]] : List (List McpTool)).flatten ≠ wide_registry.tools_.filter (visible true) := by
  refine ⟨by decide, ?_, wide_follow, rfl, ?_⟩
  · simp only [GetToolsList, Outcome.reply, wide_reply]
  · intro h
    have hlen := congrArg List.length h
    simp [wide_registry, visible] at hlen

/-- C5: a `tools/list` request whose params are absent, lack `withUserTools`, or carry a
`withUserTools` that is false or not a boolean is either dropped without a reply or answered
by `GetToolsList` with the flag unset; every result reply to it is built from the entries of
registry tools none of which is user-only, so none of which is a tool as `AddUserOnlyTool`
registers it. -/
theorem tools_list_hides_user_only (c : Collaborators) (s : McpServer) (json : cJSON)
    (hmethod : cJSON_GetObjectItem (some json) "method" = some (cJSON.string "tools/list"))
    (hflag : cJSON_GetObjectItem (cJSON_GetObjectItem (some json) "params") "withUserTools" ≠
      some (cJSON.bool true)) :
    ((ParseMessage c s json).sent = [] ∨
      ∃ id_int cursor, (ParseMessage c s json).sent =
        [GetToolsList.reply c s id_int cursor false]) ∧
    ∀ id body, Reply.result id body ∈ (ParseMessage c s json).sent →
      ∃ page : List McpTool,
        (∀ t ∈ page, t ∈ s.tools_ ∧ t.user_only = false ∧
          ∀ name description properties callback,
            t ≠ (McpTool.new name description properties callback).set_user_only true) ∧
        (body = pop_comma ("\x7b\"tools\":[" ++ entries c.to_json page) ++ "]\x7d" ∨
          ∃ next_cursor, body = pop_comma ("\x7b\"tools\":[" ++ entries c.to_json page) ++
            "],\"nextCursor\":\"" ++ next_cursor ++ "\"\x7d") := by
  rcases ParseMessage_tools_list c s json hmethod with h | ⟨id_int, h⟩
  · rw [h]
    exact ⟨Or.inl rfl, by intro id body hmem; simp [Outcome.nothing] at hmem⟩
  · rw [h, tools_list_without_flag c s id_int _ hflag]
    generalize tools_list.cursor_str (cJSON_GetObjectItem (some json) "params") = cursor
    refine ⟨Or.inr ⟨id_int, cursor, rfl⟩, ?_⟩
    intro id body hmem
    have hreply : GetToolsList.reply c s id_int cursor false = Reply.result id body := by
      simp [GetToolsList, Outcome.reply] at hmem
      exact hmem.symm
    refine ⟨(GetToolsList.run c.to_json s cursor false).added, ?_, ?_⟩
    · intro t ht
      obtain ⟨hmem1, hvis⟩ := (run_entries c.to_json s cursor false).2 t ht
      have huser : t.user_only = false := by simpa [visible] using hvis
      refine ⟨hmem1, huser, ?_⟩
      intro name description properties callback heq
      rw [heq] at huser
      simp [McpTool.set_user_only] at huser
    · rcases reply_result_body c s id_int cursor false id body hreply with hb | hb
      · exact Or.inl hb
      · exact Or.inr ⟨_, hb⟩

/-- C5 (witness): a `tools/list` request without params against the sample registry, whose
`self.screen.snapshot` is user-only. -/
theorem tools_list_hides_user_only_witness :
    (ParseMessage sample registry (cJSON.object [("jsonrpc", cJSON.string "2.0"),
        ("method", cJSON.string "tools/list"), ("id", cJSON.number 3)])).sent = [] ∨
      ∃ id_int cursor, (ParseMessage sample registry (cJSON.object [("jsonrpc", cJSON.string "2.0"),
        ("method", cJSON.string "tools/list"), ("id", cJSON.number 3)])).sent =
        [GetToolsList.reply sample registry id_int cursor false] :=
  (tools_list_hides_user_only sample registry (cJSON.object [("jsonrpc", cJSON.string "2.0"),
      ("method", cJSON.string "tools/list"), ("id", cJSON.number 3)]) rfl
    (by intro h; cases h)).1

/-- C6: a call naming no tool of the registry sends exactly one error reply, `Unknown tool:
<name>` with the request id, and schedules nothing, whatever the arguments are. -/
theorem DoToolCall_unknown_tool (c : Collaborators) (s : McpServer) (id : Int)
    (tool_name : String) (h : ∀ t ∈ s.tools_, t.name ≠ tool_name) :
    ∀ a : Option cJSON,
      (DoToolCall c s id tool_name a).sent = [Reply.error id ("Unknown tool: " ++ tool_name)] ∧
      (DoToolCall c s id tool_name a).scheduled = [] ∧
      (DoToolCall c s id tool_name a).server = s := by
  intro a
  unfold DoToolCall
  rw [find_tool_none s tool_name h]
  exact ⟨rfl, rfl, rfl⟩

/-- C6 (witness): `tools/call` for `self.reboot`, which the sample registry does not hold. -/
theorem DoToolCall_unknown_tool_witness :
    (DoToolCall sample registry 3 "self.reboot" none).sent =
      [Reply.error 3 "Unknown tool: self.reboot"] ∧
    (DoToolCall sample registry 3 "self.reboot" none).scheduled = [] :=
  ⟨(DoToolCall_unknown_tool sample registry 3 "self.reboot" (by decide) none).1,
    (DoToolCall_unknown_tool sample registry 3 "self.reboot" (by decide) none).2.1⟩

/-- C7: whether it ends in a scheduled call or in an error reply, `DoToolCall` leaves the
registry as it was, so the called tool and its declared property list are the same afterwards;
the tool a work item carries is that registry tool, and an identical second call has the same
outcome. -/
theorem DoToolCall_keeps_schema (c : Collaborators) (s : McpServer) (id : Int)
    (tool_name : String) (a : Option cJSON) :
    (DoToolCall c s id tool_name a).server = s ∧
    (find_tool (DoToolCall c s id tool_name a).server tool_name).map (fun t => t.properties) =
      (find_tool s tool_name).map (fun t => t.properties) ∧
    (∀ w ∈ (DoToolCall c s id tool_name a).scheduled, find_tool s tool_name = some w.tool) ∧
    DoToolCall c (DoToolCall c s id tool_name a).server id tool_name a =
      DoToolCall c s id tool_name a := by
  have hs := DoToolCall_server c s id tool_name a
  refine ⟨hs, by rw [hs], ?_, by rw [hs]⟩
  intro w hw
  exact (DoToolCall_scheduled c s id tool_name a w hw).1

/-- C10: a caller-supplied value whose JSON type differs from the declared type of `p` is not
stored: the binder leaves `p` as declared and not found.  When the loop reaches `p` (the
properties before it are bound), a `p` without default ends the call with the one reply
`Missing valid argument: <p.name>` and nothing scheduled, and a `p` with a default goes on
with the remaining properties, the scheduled call carrying `p` unchanged. -/
theorem DoToolCall_type_mismatch (c : Collaborators) (s : McpServer) (id : Int)
    (tool_name : String) (a : Option cJSON) (tool : McpTool) (pre pre1 : PropertyList)
    (p : Property) (post : PropertyList) (j : cJSON)
    (hfind : find_tool s tool_name = some tool)
    (hsplit : tool.properties = pre ++ p :: post)
    (hj : cJSON_GetObjectItem a p.name = some j)
    (hmis : has_typed_value a p = false)
    (hpre : bind_arguments c.what a pre = Binding.bound pre1) :
    cJSON_GetObjectItem a p.name = some j ∧
    bind_argument c.what a p = Except.ok (p, false) ∧
    (p.has_default_value = false →
      (DoToolCall c s id tool_name a).sent =
        [Reply.error id ("Missing valid argument: " ++ p.name)] ∧
      (DoToolCall c s id tool_name a).scheduled = []) ∧
    (p.has_default_value = true →
      bind_arguments c.what a tool.properties =
        (bind_arguments c.what a post).prepend (pre1 ++ [p]) ∧
      ∀ post1, bind_arguments c.what a post = Binding.bound post1 →
        DoToolCall c s id tool_name a =
          { server := s, sent := [],
            scheduled := [{ id := id, tool := tool, arguments := pre1 ++ p :: post1 }],
            vision := [] }) := by
  refine ⟨hj, bind_argument_untyped c.what a p hmis, ?_, ?_⟩
  · intro hd
    have hb : bind_arguments c.what a tool.properties = Binding.missing p.name := by
      rw [hsplit, bind_arguments_append c.what a _ pre pre1 hpre,
        bind_arguments_missing c.what a p post hd hmis]
      rfl
    rw [DoToolCall_of_missing c s id tool_name a tool p.name hfind hb]
    exact ⟨rfl, rfl⟩
  · intro hd
    have hb : bind_arguments c.what a tool.properties =
        (bind_arguments c.what a post).prepend (pre1 ++ [p]) := by
      rw [hsplit, bind_arguments_append c.what a _ pre pre1 hpre,
        bind_arguments_default c.what a p post hd hmis, prepend_prepend]
    refine ⟨hb, ?_⟩
    intro post1 hpost
    rw [hpost] at hb
    simp [Binding.prepend] at hb
    exact DoToolCall_of_bound c s id tool_name a tool _ hfind hb

/-- C10 (witness): `self.screen.snapshot` called with `quality` given as the string "90": the
call is scheduled with the default 80. -/
theorem DoToolCall_type_mismatch_witness :
    (DoToolCall sample registry 7 "self.screen.snapshot"
      (some (cJSON.object [("url", cJSON.string "u"), ("quality", cJSON.string "90")]))).scheduled.map
        (fun w => w.arguments) =
      [[(Property.required "url" PropertyType.kPropertyTypeString).set_value (Value.string "u"),
        Property.rangedDefault "quality" 80 1 100]] :=
  congrArg (fun o : Outcome => o.scheduled.map (fun w => w.arguments))
    (((DoToolCall_type_mismatch sample registry 7 "self.screen.snapshot"
      (some (cJSON.object [("url", cJSON.string "u"), ("quality", cJSON.string "90")])) snapshot
      [Property.required "url" PropertyType.kPropertyTypeString]
      [(Property.required "url" PropertyType.kPropertyTypeString).set_value (Value.string "u")]
      (Property.rangedDefault "quality" 80 1 100) [] (cJSON.string "90") rfl rfl rfl rfl
      rfl).2.2.2 rfl).2 [] rfl)

/-- C11 (amended): for a non-empty cursor naming a tool of the registry, the loop of
`GetToolsList` starts at the first tool of that name, not after it: the page is an initial
part of the visible tools from that tool on, and when the tool is visible and its entry fits
an empty page it is the first tool of the page. -/
theorem GetToolsList_starts_at_cursor (c : Collaborators) (s : McpServer) (cursor : String)
    (flag : Bool) (hc : cursor ≠ "") (h : ∃ t ∈ s.tools_, t.name = cursor) :
    ∃ A t B, s.tools_ = A ++ t :: B ∧ (∀ q ∈ A, q.name ≠ cursor) ∧ t.name = cursor ∧
      GetToolsList.run c.to_json s cursor flag =
        GetToolsList.scan c.to_json cursor flag (t :: B) true "\x7b\"tools\":[" [] ∧
      (∃ rest, (t :: B).filter (visible flag) =
        (GetToolsList.run c.to_json s cursor flag).added ++ rest) ∧
      (visible flag t = true → 10 + (c.to_json t).utf8ByteSize + 1 + 30 ≤ 8000 →
        ∃ more, (GetToolsList.run c.to_json s cursor flag).added = t :: more) := by
  obtain ⟨A, t, B, hsplit, hA, ht, hstart⟩ := start_position_of_mem s.tools_ cursor hc h
  have hrun := run_start c.to_json s cursor flag
  rw [hstart] at hrun
  refine ⟨A, t, B, hsplit, hA, ht, hrun, ?_, ?_⟩
  · rw [hrun]
    rcases scan_found c.to_json cursor flag (t :: B) "\x7b\"tools\":[" [] with
      ⟨_, hadded, _⟩ | ⟨pre, t1, post, hR, _, _, hadded, _⟩
    · exact ⟨[], by rw [hadded]; simp⟩
    · exact ⟨(t1 :: post).filter (visible flag), by rw [hadded, hR, List.filter_append]; simp⟩
  · intro hv hfit
    have hsize : ¬ ("\x7b\"tools\":[".utf8ByteSize + (c.to_json t ++ ",").utf8ByteSize + 30 >
        8000) := by
      have hcomma : ",".utf8ByteSize = 1 := by decide
      rw [header_size, utf8ByteSize_append, hcomma]
      omega
    rw [hrun, scan_visible c.to_json cursor flag t B _ _ hv, if_neg hsize]
    obtain ⟨new, hnew, _, _⟩ := scan_entries c.to_json cursor flag B true
      ("\x7b\"tools\":[" ++ (c.to_json t ++ ",")) ([] ++ [t])
    exact ⟨new, by rw [hnew]; rfl⟩

/-- C11 (witness): the sample registry listed from the cursor `echo`: the page starts with
`echo`. -/
theorem GetToolsList_starts_at_cursor_witness :
    ∃ A t B, registry.tools_ = A ++ t :: B ∧ (∀ q ∈ A, q.name ≠ "echo") ∧ t.name = "echo" ∧
      GetToolsList.run sample.to_json registry "echo" true =
        GetToolsList.scan sample.to_json "echo" true (t :: B) true "\x7b\"tools\":[" [] ∧
      (∃ rest, (t :: B).filter (visible true) =
        (GetToolsList.run sample.to_json registry "echo" true).added ++ rest) ∧
      (visible true t = true → 10 + (sample.to_json t).utf8ByteSize + 1 + 30 ≤ 8000 →
        ∃ more, (GetToolsList.run sample.to_json registry "echo" true).added = t :: more) :=
  GetToolsList_starts_at_cursor sample registry "echo" true (by decide)
    ⟨echo, by simp [registry], rfl⟩

/-- C11 (counterexample): the cursor `echo` names the first tool of the sample registry, and
the page returned for it holds the entry of `echo` itself, as its first entry. -/
theorem GetToolsList_starts_at_cursor_counterexample :
    (GetToolsList.run sample.to_json registry "echo" true).added.map (fun t => t.name) =
      ["echo", "self.audio_speaker.set_volume", "self.screen.snapshot"] ∧
    (GetToolsList sample registry 1 "echo" true).sent =
      [Reply.result 1 ("\x7b\"tools\":[" ++ sample.to_json echo ++ "," ++
        sample.to_json set_volume ++ "," ++ sample.to_json snapshot ++ "]\x7d")] :=
  ⟨registry_page_at_echo, registry_reply_at_echo⟩

/-- C12 (amended): when no tool of the registry is named by the empty string, a successful
reply of `GetToolsList` either emitted every visible tool from the start position on and has
no `nextCursor` field, or left out a visible tool and carries as `nextCursor` the name of the
first visible tool it left out. -/
theorem GetToolsList_next_cursor (c : Collaborators) (s : McpServer) (id : Int)
    (cursor : String) (flag : Bool) (id1 : Int) (body : String)
    (hnames : ∀ t ∈ s.tools_, t.name ≠ "")
    (hreply : GetToolsList.reply c s id cursor flag = Reply.result id1 body) :
    ((GetToolsList.run c.to_json s cursor flag).added =
        (start_position s.tools_ cursor).filter (visible flag) ∧
      body = pop_comma ("\x7b\"tools\":[" ++
        entries c.to_json (GetToolsList.run c.to_json s cursor flag).added) ++ "]\x7d") ∨
    (∃ pre t post, start_position s.tools_ cursor = pre ++ t :: post ∧
      visible flag t = true ∧
      (GetToolsList.run c.to_json s cursor flag).added = pre.filter (visible flag) ∧
      body = pop_comma ("\x7b\"tools\":[" ++
        entries c.to_json (GetToolsList.run c.to_json s cursor flag).added) ++
        "],\"nextCursor\":\"" ++ t.name ++ "\"\x7d") := by
  obtain ⟨_, hno, hyes⟩ := reply_result_form c s id cursor flag id1 body hreply
  rw [(run_entries c.to_json s cursor flag).1] at hno hyes
  have hrun := run_start c.to_json s cursor flag
  rcases scan_found c.to_json cursor flag (start_position s.tools_ cursor) "\x7b\"tools\":[" []
    with ⟨hnext, hadded, _⟩ | ⟨pre, t, post, hR, hv, hnext, hadded, _⟩
  · left
    rw [← hrun] at hnext hadded
    exact ⟨by rw [hadded]; rfl, hno (by rw [hnext]; rfl)⟩
  · right
    rw [← hrun] at hnext hadded
    have htmem : t ∈ s.tools_ :=
      start_position_subset s.tools_ cursor t (by rw [hR]; simp)
    refine ⟨pre, t, post, hR, hv, by rw [hadded]; rfl, ?_⟩
    rw [← hnext]
    exact hyes (by rw [hnext]; exact isEmpty_eq_false t.name (hnames t htmem))

/-- C12 (witness): the sample registry listed without user-only tools is answered with a page
of one of the two forms. -/
theorem GetToolsList_next_cursor_witness :
    ((GetToolsList.run sample.to_json registry "" false).added =
        (start_position registry.tools_ "").filter (visible false) ∧
      "\x7b\"tools\":[" ++ sample.to_json echo ++ "," ++ sample.to_json set_volume ++ "]\x7d" =
        pop_comma ("\x7b\"tools\":[" ++
          entries sample.to_json (GetToolsList.run sample.to_json registry "" false).added) ++
          "]\x7d") ∨
    (∃ pre t post, start_position registry.tools_ "" = pre ++ t :: post ∧
      visible false t = true ∧
      (GetToolsList.run sample.to_json registry "" false).added = pre.filter (visible false) ∧
      "\x7b\"tools\":[" ++ sample.to_json echo ++ "," ++ sample.to_json set_volume ++ "]\x7d" =
        pop_comma ("\x7b\"tools\":[" ++
          entries sample.to_json (GetToolsList.run sample.to_json registry "" false).added) ++
          "],\"nextCursor\":\"" ++ t.name ++ "\"\x7d") :=
  GetToolsList_next_cursor sample registry 1 "" false 1 _ (by decide) registry_public_reply

/-- C12 (counterexample): the page for the registry `[wide, unnamed]` is a success, holds
`wide` only and has no `nextCursor` field, although the visible tool `unnamed` at the start
position was left out. -/
theorem GetToolsList_next_cursor_counterexample :
    GetToolsList.reply sample wide_registry 1 "" true =
      Reply.result 1 ("\x7b\"tools\":[" ++ sample.to_json wide ++ "]\x7d") ∧
    (GetToolsList.run sample.to_json wide_registry "" true).added = [wide] ∧
    (start_position wide_registry.tools_ "").filter (visible true) = [wide, unnamed] :=
  ⟨wide_reply 1, by rw [wide_run], rfl⟩

/-- C13: the registry `[brim, set_volume]` listed from the start: the page holds `brim`, whose
entry brings the text to 7970 bytes, and the `nextCursor` field with the 29 bytes of the name
of the second tool; the body passed to `ReplyResult` is 8016 bytes long. -/
theorem GetToolsList_body_over_budget :
    (GetToolsList sample brim_registry 1 "" true).sent =
      [Reply.result 1 ("\x7b\"tools\":[" ++ sample.to_json brim ++ "],\"nextCursor\":\"" ++
        "self.audio_speaker.set_volume" ++ "\"\x7d")] ∧
    ("\x7b\"tools\":[" ++ sample.to_json brim ++ "],\"nextCursor\":\"" ++
      "self.audio_speaker.set_volume" ++ "\"\x7d").utf8ByteSize = 8016 ∧
    8000 < ("\x7b\"tools\":[" ++ sample.to_json brim ++ "],\"nextCursor\":\"" ++
      "self.audio_speaker.set_volume" ++ "\"\x7d").utf8ByteSize := by
  refine ⟨?_, brim_body_size, ?_⟩
  · simp only [GetToolsList, Outcome.reply, brim_reply]
  · rw [brim_body_size]
    decide

/-- C14 (amended): for a non-empty registry and a non-empty cursor that is the name of none
of its tools, `GetToolsList` sends no result: its one reply is the error `Failed to add tool
 because of payload size limit`, with an empty tool name, and nothing else happens. -/
theorem GetToolsList_unknown_cursor (c : Collaborators) (s : McpServer) (id : Int)
    (cursor : String) (flag : Bool) (hne : s.tools_ ≠ []) (hc : cursor ≠ "")
    (h : ∀ t ∈ s.tools_, t.name ≠ cursor) :
    GetToolsList c s id cursor flag =
      Outcome.reply s (Reply.error id "Failed to add tool  because of payload size limit") := by
  have hrun := run_start c.to_json s cursor flag
  rw [start_position_unknown s.tools_ cursor hc h] at hrun
  have hjson : (GetToolsList.run c.to_json s cursor flag).json = "\x7b\"tools\":[" := by
    rw [hrun]; rfl
  have hnext : (GetToolsList.run c.to_json s cursor flag).next_cursor = "" := by
    rw [hrun]; rfl
  unfold GetToolsList
  rw [reply_error_of_nothing_added c s id cursor flag hne hjson, hnext]
  rfl

/-- C14 (witness): the sample registry asked for the page after `self.reboot`, which it does
not hold. -/
theorem GetToolsList_unknown_cursor_witness :
    GetToolsList sample registry 4 "self.reboot" true =
      Outcome.reply registry
        (Reply.error 4 "Failed to add tool  because of payload size limit") :=
  GetToolsList_unknown_cursor sample registry 4 "self.reboot" true (by simp [registry])
    (by decide) (by decide)

/-- C14 (counterexample): the sample registry is not empty and holds no tool named
`self.reboot`; the reply to that cursor is an error, not a result with an empty tools
array. -/
theorem GetToolsList_unknown_cursor_counterexample :
    registry.tools_.length = 3 ∧
    (registry.tools_.map (fun t => t.name)).all (fun n => n != "self.reboot") = true ∧
    (GetToolsList sample registry 4 "self.reboot" true).sent =
      [Reply.error 4 "Failed to add tool  because of payload size limit"] ∧
    (GetToolsList sample registry 4 "self.reboot" true).sent ≠
      [Reply.result 4 "\x7b\"tools\":[]\x7d"] := by
  decide

/-- C15: when the first visible tool at the start position has an entry too large for an
otherwise empty page, `GetToolsList` sends the one error reply `Failed to add tool <name>
because of payload size limit` naming that tool, and no result. -/
theorem GetToolsList_entry_too_large (c : Collaborators) (s : McpServer) (id : Int)
    (cursor : String) (flag : Bool) (pre : List McpTool) (t : McpTool) (post : List McpTool)
    (hstart : start_position s.tools_ cursor = pre ++ t :: post)
    (hpre : ∀ q ∈ pre, visible flag q = false) (hv : visible flag t = true)
    (hlarge : "\x7b\"tools\":[".utf8ByteSize + (c.to_json t).utf8ByteSize + 1 + 30 > 8000) :
    GetToolsList c s id cursor flag =
      Outcome.reply s
        (Reply.error id ("Failed to add tool " ++ t.name ++ " because of payload size limit")) := by
  have hsize : "\x7b\"tools\":[".utf8ByteSize + (c.to_json t ++ ",").utf8ByteSize + 30 >
      8000 := by
    have hcomma : ",".utf8ByteSize = 1 := by decide
    rw [utf8ByteSize_append, hcomma]
    omega
  have hrun := run_start c.to_json s cursor flag
  rw [hstart, scan_hidden c.to_json cursor flag _ _ _ pre hpre,
    scan_visible c.to_json cursor flag t post _ _ hv, if_pos hsize] at hrun
  have hne : s.tools_ ≠ [] :=
    List.ne_nil_of_mem (start_position_subset s.tools_ cursor t (by rw [hstart]; simp))
  unfold GetToolsList
  rw [reply_error_of_nothing_added c s id cursor flag hne (by rw [hrun]), hrun]

/-- C15 (witness): listed without user-only tools, the registry `[snapshot, giant]` has
`giant` as its first visible tool, with an entry of 7960 bytes. -/
theorem GetToolsList_entry_too_large_witness :
    GetToolsList sample giant_registry 6 "" false =
      Outcome.reply giant_registry
        (Reply.error 6 "Failed to add tool giant because of payload size limit") :=
  GetToolsList_entry_too_large sample giant_registry 6 "" false [snapshot] giant [] rfl
    (by decide) rfl (by rw [header_size, giant_entry_size]; decide)

/-- C16: a message that is not valid JSON, or whose `jsonrpc` member is not the string "2.0",
or whose `method` member is not a string, or whose `id` member is not a number, is dropped:
`ParseMessage` sends nothing and schedules nothing, and its outcome is that of none of the
method branches. -/
theorem ParseMessage_drops_bad_envelope (cJSON_Parse : String → Option cJSON)
    (c : Collaborators) (s : McpServer) (message : String)
    (h : cJSON_Parse message = none ∨
      ∃ json, cJSON_Parse message = some json ∧
        (cJSON_GetObjectItem (some json) "jsonrpc" ≠ some (cJSON.string "2.0") ∨
          cJSON_IsString (cJSON_GetObjectItem (some json) "method") = false ∨
          cJSON_IsNumber (cJSON_GetObjectItem (some json) "id") = false)) :
    ParseMessage.string cJSON_Parse c s message = Outcome.nothing s ∧
    (ParseMessage.string cJSON_Parse c s message).sent = [] ∧
    (ParseMessage.string cJSON_Parse c s message).scheduled = [] ∧
    ∀ id method_str params,
      ParseMessage.string cJSON_Parse c s message ≠ dispatch c s id method_str params := by
  have hnothing : ParseMessage.string cJSON_Parse c s message = Outcome.nothing s := by
    unfold ParseMessage.string
    rcases h with h | ⟨json, hjson, h⟩
    · rw [h]
    · rw [hjson]
      rcases h with h | h | h
      · exact ParseMessage_bad_version c s json h
      · exact ParseMessage_bad_method c s json h
      · exact ParseMessage_bad_id c s json h
  rw [hnothing]
  exact ⟨rfl, rfl, rfl, fun id method_str params heq =>
    dispatch_not_nothing c s id method_str params heq.symm⟩

/-- C16 (witness): a `tools/list` request whose id is a string is dropped. -/
theorem ParseMessage_drops_bad_envelope_witness :
    ParseMessage.string
        (fun _ => some (cJSON.object [("jsonrpc", cJSON.string "2.0"),
          ("method", cJSON.string "tools/list"), ("id", cJSON.string "7")]))
        sample registry "text" = Outcome.nothing registry :=
  (ParseMessage_drops_bad_envelope
    (fun _ => some (cJSON.object [("jsonrpc", cJSON.string "2.0"),
      ("method", cJSON.string "tools/list"), ("id", cJSON.string "7")]))
    sample registry "text" (Or.inr ⟨_, rfl, Or.inr (Or.inr rfl)⟩)).1

/-- C19 (amended): a message with `jsonrpc` "2.0", a string method not beginning with
`notifications`, params absent or an object, and a numeric id leads to at least one reply
carrying that id, sent by `ParseMessage` or by the work item it scheduled. -/
theorem process_answers (c : Collaborators) (s : McpServer) (json : cJSON)
    (method_str : String) (id : Int)
    (hver : cJSON_GetObjectItem (some json) "jsonrpc" = some (cJSON.string "2.0"))
    (hmethod : cJSON_GetObjectItem (some json) "method" = some (cJSON.string method_str))
    (hnot : "notifications".isPrefixOf method_str = false)
    (hparams : params_accepted (cJSON_GetObjectItem (some json) "params") = true)
    (hid : cJSON_GetObjectItem (some json) "id" = some (cJSON.number id)) :
    ∃ r ∈ process c s json, r.id = id := by
  unfold process
  rw [ParseMessage_accepted c s json method_str id hver hmethod hnot hparams hid]
  exact dispatch_answers c s id method_str _

/-- C19 (witness): a `tools/call` of `echo` is answered by the scheduled work item. -/
theorem process_answers_witness :
    ∃ r ∈ process sample registry (cJSON.object [("jsonrpc", cJSON.string "2.0"),
        ("method", cJSON.string "tools/call"),
        ("params", cJSON.object [("name", cJSON.string "echo"),
          ("arguments", cJSON.object [("msg", cJSON.string "hi")])]),
        ("id", cJSON.number 5)]), r.id = 5 :=
  process_answers sample registry _ "tools/call" 5 rfl rfl (by decide) (by decide) rfl

/-- C19 (counterexample): a `tools/list` request with `jsonrpc` "2.0", a numeric id and
params given as an array gets no reply at all. -/
theorem process_answers_counterexample :
    process sample registry (cJSON.object [("jsonrpc", cJSON.string "2.0"),
      ("method", cJSON.string "tools/list"), ("params", cJSON.array []),
      ("id", cJSON.number 5)]) = [] := by
  decide

/-- C20 (amended): for every id and every message text without a quote, a backslash or a
control character, the payload of `ReplyError` decodes as the object with the members
`jsonrpc` = "2.0", `id` = the given id and `error` = an object holding `message`, and the
decoded `error.message` is the message text, character for character. -/
theorem ReplyError_decodes (id : Int) (message : String)
    (hplain : ∀ ch ∈ message.data, ch ≠ '"' ∧ ch ≠ '\\' ∧ 32 ≤ ch.toNat) :
    decode_error id (ReplyError id message) = some message := by
  unfold decode_error
  rw [ReplyError_data, expect_append]
  simp only
  rw [read_string_plain _ message.data _ [] hplain (by simp; omega)]
  simp

/-- C20 (witness): the payload of the reply `Missing params` to request 9. -/
theorem ReplyError_decodes_witness :
    decode_error 9 (ReplyError 9 "Missing params") = some "Missing params" :=
  ReplyError_decodes 9 "Missing params" (by decide)

/-- C20 (counterexample): `tools/call` for the tool name `a"b` is answered `Unknown tool:
a"b`; `ReplyError` copies the quote into the payload unescaped, the string ends at it, and
the payload does not decode. -/
theorem ReplyError_decodes_counterexample :
    (DoToolCall sample registry 1 "a\"b" none).sent = [Reply.error 1 "Unknown tool: a\"b"] ∧
    ReplyError 1 "Unknown tool: a\"b" =
      "\x7b\"jsonrpc\":\"2.0\",\"id\":1,\"error\":\x7b\"message\":\"Unknown tool: a\"b\"\x7d\x7d" ∧
    decode_error 1 (ReplyError 1 "Unknown tool: a\"b") = none := by
  decide

/-- C21: when the binding succeeds, `DoToolCall` returns with no reply sent and exactly one
work item scheduled, holding the request id, the tool and the bound arguments by value; this
is so whatever the handler of the tool is, so the handler is not run by `DoToolCall`; the
handler runs, and the reply is sent, when the work item is run. -/
theorem DoToolCall_defers_handler (c : Collaborators) (s : McpServer) (id : Int)
    (tool_name : String) (a : Option cJSON) (tool : McpTool) (arguments : PropertyList)
    (hfind : find_tool s tool_name = some tool)
    (hb : bind_arguments c.what a tool.properties = Binding.bound arguments) :
    DoToolCall c s id tool_name a =
      { server := s, sent := [],
        scheduled := [{ id := id, tool := tool, arguments := arguments }], vision := [] } ∧
    (∀ callback : PropertyList → Except String ReturnValue,
      DoToolCall.bind_and_schedule c s id { tool with callback := callback } a =
        { server := s, sent := [],
          scheduled := [{ id := id, tool := { tool with callback := callback },
                          arguments := arguments }], vision := [] }) ∧
    (∀ r, tool.callback arguments = Except.ok r →
      WorkItem.run c { id := id, tool := tool, arguments := arguments } =
        [Reply.result id (c.encode r)]) ∧
    (∀ e, tool.callback arguments = Except.error e →
      WorkItem.run c { id := id, tool := tool, arguments := arguments } =
        [Reply.error id e]) := by
  refine ⟨DoToolCall_of_bound c s id tool_name a tool arguments hfind hb, ?_, ?_, ?_⟩
  · intro callback
    unfold DoToolCall.bind_and_schedule
    simp only [hb]
  · intro r hr
    unfold WorkItem.run
    simp only [hr]
  · intro e he
    unfold WorkItem.run
    simp only [he]

/-- C21 (witness): `echo` called with `msg` = "hi": nothing is sent by `DoToolCall`, and the
scheduled work item replies "hi" when it is run. -/
theorem DoToolCall_defers_handler_witness :
    (DoToolCall sample registry 5 "echo"
      (some (cJSON.object [("msg", cJSON.string "hi")]))).sent = [] ∧
    WorkItem.run sample ⟨5, echo,
      [(Property.required "msg" PropertyType.kPropertyTypeString).set_value
        (Value.string "hi")]⟩ = [Reply.result 5 "hi"] :=
  ⟨congrArg (fun o : Outcome => o.sent)
      (DoToolCall_defers_handler sample registry 5 "echo"
        (some (cJSON.object [("msg", cJSON.string "hi")])) echo
        [(Property.required "msg" PropertyType.kPropertyTypeString).set_value
          (Value.string "hi")] rfl rfl).1,
    (DoToolCall_defers_handler sample registry 5 "echo"
      (some (cJSON.object [("msg", cJSON.string "hi")])) echo
      [(Property.required "msg" PropertyType.kPropertyTypeString).set_value
        (Value.string "hi")] rfl rfl).2.2.1 (ReturnValue.text "hi") rfl⟩

/-- C22: when the handler of a work item scheduled by `DoToolCall` raises an error with the
message `m`, running the work item sends exactly one reply, the error reply with the id of the
call and the message `m`; no result reply is sent, and the run ends normally. -/
theorem WorkItem_run_handler_error (c : Collaborators) (s : McpServer) (id : Int)
    (tool_name : String) (a : Option cJSON) (w : WorkItem) (m : String)
    (hw : w ∈ (DoToolCall c s id tool_name a).scheduled)
    (herr : w.tool.callback w.arguments = Except.error m) :
    WorkItem.run c w = [Reply.error id m] ∧
    (∀ r ∈ WorkItem.run c w, ∀ id1 body, r ≠ Reply.result id1 body) := by
  obtain ⟨_, hid, _, _, _⟩ := DoToolCall_scheduled c s id tool_name a w hw
  have hrun : WorkItem.run c w = [Reply.error id m] := by
    unfold WorkItem.run
    simp only [herr, hid]
  rw [hrun]
  refine ⟨rfl, ?_⟩
  intro r hr id1 body
  rw [List.mem_singleton.mp hr]
  simp

/-- C22 (witness): the handler of `failing` raises `Failed to capture photo`; the work item
scheduled for request 8 answers with that message. -/
theorem WorkItem_run_handler_error_witness :
    WorkItem.run sample ⟨8, failing, []⟩ = [Reply.error 8 "Failed to capture photo"] :=
  (WorkItem_run_handler_error sample { tools_ := [failing] } 8 "failing" none
    ⟨8, failing, []⟩ "Failed to capture photo"
    (by simp [DoToolCall, find_tool, failing, McpTool.new, DoToolCall.bind_and_schedule,
      bind_arguments]) rfl).1

/-- C23: registering a tool whose name is not yet in the registry appends it: the registry is
the old registry followed by the new tool, which is then found by its name; `AddUserOnlyTool`
appends the same tool marked user-only. -/
theorem AddTool_appends (s : McpServer) (tool : McpTool)
    (h : ∀ t ∈ s.tools_, t.name ≠ tool.name) :
    (AddTool s tool).tools_ = s.tools_ ++ [tool] ∧
    (AddTool s tool).tools_.take s.tools_.length = s.tools_ ∧
    (AddTool s tool).tools_.getLast? = some tool ∧
    find_tool (AddTool s tool) tool.name = some tool ∧
    (∀ description properties callback,
      (AddUserOnlyTool s tool.name description properties callback).tools_ =
        s.tools_ ++ [(McpTool.new tool.name description properties callback).set_user_only
          true] ∧
      find_tool (AddUserOnlyTool s tool.name description properties callback) tool.name =
        some ((McpTool.new tool.name description properties callback).set_user_only true)) := by
  have hadd := AddTool_new s tool h
  refine ⟨by rw [hadd], by rw [hadd]; simp, by rw [hadd]; simp, ?_, ?_⟩
  · rw [hadd]
    exact find_tool_append_new s tool h
  · intro description properties callback
    have hnew : AddUserOnlyTool s tool.name description properties callback =
        { tools_ := s.tools_ ++
          [(McpTool.new tool.name description properties callback).set_user_only true] } :=
      AddTool_new s _ h
    rw [hnew]
    exact ⟨rfl, find_tool_append_new s
      ((McpTool.new tool.name description properties callback).set_user_only true) h⟩

/-- C23 (witness): `wide` registered into the sample registry becomes its fourth tool. -/
theorem AddTool_appends_witness :
    (AddTool registry wide).tools_ = registry.tools_ ++ [wide] :=
  (AddTool_appends registry wide (by decide)).1

/-- C24: `AddTool` keeps the names of the registry pairwise different, but `AddCommonTools`
does not: called twice, or called after a tool named like a common tool was registered, it
leaves two tools of the same name in the registry. -/
theorem bring_up_duplicate_names :
    (∀ (s : McpServer) (tool : McpTool), (s.tools_.map (fun t => t.name)).Nodup →
      ((AddTool s tool).tools_.map (fun t => t.name)).Nodup) ∧
    ((bring_up [Registration.add_tool (McpTool.new "self.camera.remote.get" "Board camera" []
          (fun _ => Except.ok (ReturnValue.bool true))),
        Registration.add_common_tools sample_board]).tools_.map (fun t => t.name)).count
      "self.camera.remote.get" = 2 ∧
    ¬ ((bring_up [Registration.add_tool (McpTool.new "self.camera.remote.get" "Board camera" []
          (fun _ => Except.ok (ReturnValue.bool true))),
        Registration.add_common_tools sample_board]).tools_.map (fun t => t.name)).Nodup ∧
    ¬ ((bring_up [Registration.add_common_tools sample_board,
        Registration.add_common_tools sample_board]).tools_.map (fun t => t.name)).Nodup := by
  refine ⟨AddTool_nodup, ?_, ?_, ?_⟩
  · simp [bring_up, Registration.apply, AddCommonTools, common_tools_registered, AddTool,
      common_tools, sample_board, McpTool.new]
  · simp [bring_up, Registration.apply, AddCommonTools, common_tools_registered, AddTool,
      common_tools, sample_board, McpTool.new]
  · simp [bring_up, Registration.apply, AddCommonTools, common_tools_registered, AddTool,
      common_tools, sample_board, McpTool.new]

/-- C25: after `AddCommonTools` the registry is the common tools, in the order of their
registration, followed by the tools that were registered before the call, all of them, in
their original order. -/
theorem AddCommonTools_order (b : Board) (s : McpServer) :
    (AddCommonTools b s).tools_ = common_tools b ++ s.tools_ ∧
    (AddCommonTools b s).tools_.drop (common_tools b).length = s.tools_ ∧
    (AddCommonTools b s).tools_.take (common_tools b).length =
      ((common_tools b).foldl AddTool { tools_ := [] }).tools_ := by
  have h : (AddCommonTools b s).tools_ = common_tools b ++ s.tools_ := by
    unfold AddCommonTools
    simp only [common_tools_registered]
  refine ⟨h, by rw [h]; simp, by rw [h, common_tools_registered]; simp⟩

/-- C26: setting the user-only flags of the registry's tools in any other way changes neither
the replies `DoToolCall` sends, nor the id and the bound arguments of the work item it
schedules, nor the replies that work item sends when it is run; a user-only tool, which a
listing without the flag hides, is scheduled like any other when it is called by name. -/
theorem DoToolCall_ignores_visibility (c : Collaborators) (s : McpServer)
    (user_only : McpTool → Bool) (id : Int) (tool_name : String) (a : Option cJSON) :
    (DoToolCall c (relabel user_only s) id tool_name a).sent =
      (DoToolCall c s id tool_name a).sent ∧
    (DoToolCall c (relabel user_only s) id tool_name a).scheduled.map
        (fun w => (w.id, w.tool.name, w.arguments)) =
      (DoToolCall c s id tool_name a).scheduled.map
        (fun w => (w.id, w.tool.name, w.arguments)) ∧
    (DoToolCall c (relabel user_only s) id tool_name a).scheduled.map (WorkItem.run c) =
      (DoToolCall c s id tool_name a).scheduled.map (WorkItem.run c) ∧
    (∀ (tool : McpTool) (arguments : PropertyList), find_tool s tool_name = some tool →
      tool.user_only = true →
      bind_arguments c.what a tool.properties = Binding.bound arguments →
      visible false tool = false ∧
      DoToolCall c s id tool_name a =
        { server := s, sent := [],
          scheduled := [{ id := id, tool := tool, arguments := arguments }],
          vision := [] }) := by
  have hsame : (DoToolCall c (relabel user_only s) id tool_name a).sent =
        (DoToolCall c s id tool_name a).sent ∧
      (DoToolCall c (relabel user_only s) id tool_name a).scheduled.map
          (fun w => (w.id, w.tool.name, w.arguments)) =
        (DoToolCall c s id tool_name a).scheduled.map
          (fun w => (w.id, w.tool.name, w.arguments)) ∧
      (DoToolCall c (relabel user_only s) id tool_name a).scheduled.map (WorkItem.run c) =
        (DoToolCall c s id tool_name a).scheduled.map (WorkItem.run c) := by
    unfold DoToolCall
    rw [find_tool_relabel]
    cases find_tool s tool_name with
    | none => exact ⟨rfl, rfl, rfl⟩
    | some tool =>
      simp only [Option.map_some', DoToolCall.bind_and_schedule]
      have hprops : (tool.set_user_only (user_only tool)).properties = tool.properties := rfl
      rw [hprops]
      cases bind_arguments c.what a tool.properties <;> exact ⟨rfl, rfl, rfl⟩
  refine ⟨hsame.1, hsame.2.1, hsame.2.2, ?_⟩
  intro tool arguments hfind huser hb
  exact ⟨by simp [visible, huser], DoToolCall_of_bound c s id tool_name a tool arguments hfind hb⟩

/-- C26 (witness): the user-only tool `self.screen.snapshot` is not visible to a listing
without the flag, and a call naming it is scheduled all the same. -/
theorem DoToolCall_ignores_visibility_witness :
    visible false snapshot = false ∧
    DoToolCall sample registry 9 "self.screen.snapshot"
        (some (cJSON.object [("url", cJSON.string "http://host/upload")])) =
      { server := registry, sent := [],
        scheduled := [⟨9, snapshot,
          [(Property.required "url" PropertyType.kPropertyTypeString).set_value
            (Value.string "http://host/upload"), Property.rangedDefault "quality" 80 1 100]⟩],
        vision := [] } :=
  (DoToolCall_ignores_visibility sample registry (fun _ => false) 9 "self.screen.snapshot"
    (some (cJSON.object [("url", cJSON.string "http://host/upload")]))).2.2.2 snapshot
    [(Property.required "url" PropertyType.kPropertyTypeString).set_value
      (Value.string "http://host/upload"), Property.rangedDefault "quality" 80 1 100]
    rfl rfl rfl

/-- C27: `GetToolsList` answers an empty registry with the result whose tools array is empty,
and no other registry with a result for which nothing was emitted: for a non-empty registry
and no entry emitted the reply is the error `Failed to add tool <next_cursor> because of
payload size limit`, where `next_cursor` is empty or names the first visible tool at the start
position, whose entry was over the budget. -/
theorem GetToolsList_empty_page (c : Collaborators) (s : McpServer) (id : Int)
    (cursor : String) (flag : Bool) :
    (s.tools_ = [] →
      GetToolsList c s id cursor flag =
        Outcome.reply s (Reply.result id "\x7b\"tools\":[]\x7d")) ∧
    ((∃ body, GetToolsList.reply c s id cursor flag = Reply.result id body ∧
        (GetToolsList.run c.to_json s cursor flag).added = []) ↔ s.tools_ = []) ∧
    (s.tools_ ≠ [] → (GetToolsList.run c.to_json s cursor flag).added = [] →
      GetToolsList c s id cursor flag =
        Outcome.reply s (Reply.error id ("Failed to add tool " ++
          (GetToolsList.run c.to_json s cursor flag).next_cursor ++
          " because of payload size limit")) ∧
      ((GetToolsList.run c.to_json s cursor flag).next_cursor = "" ∨
        ∃ pre t post, start_position s.tools_ cursor = pre ++ t :: post ∧
          (∀ q ∈ pre, visible flag q = false) ∧ visible flag t = true ∧
          "\x7b\"tools\":[".utf8ByteSize + (c.to_json t ++ ",").utf8ByteSize + 30 > 8000 ∧
          (GetToolsList.run c.to_json s cursor flag).next_cursor = t.name)) := by
  have hempty : s.tools_ = [] →
      GetToolsList.run c.to_json s cursor flag =
        { json := "\x7b\"tools\":[", next_cursor := "", added := [] } := by
    intro h
    unfold GetToolsList.run
    rw [h]
    rfl
  have hresult : s.tools_ = [] →
      GetToolsList.reply c s id cursor flag = Reply.result id "\x7b\"tools\":[]\x7d" := by
    intro h
    have hpop : pop_comma "\x7b\"tools\":[" = "\x7b\"tools\":[" := by decide
    have hisEmpty : "".isEmpty = true := rfl
    unfold GetToolsList.reply
    simp only [hempty h, hpop, h, hisEmpty, List.isEmpty_nil, Bool.not_true, Bool.and_false,
      Bool.false_eq_true, if_false, if_true]
    rfl
  have herror : s.tools_ ≠ [] → (GetToolsList.run c.to_json s cursor flag).added = [] →
      GetToolsList.reply c s id cursor flag =
        Reply.error id ("Failed to add tool " ++
          (GetToolsList.run c.to_json s cursor flag).next_cursor ++
          " because of payload size limit") := by
    intro hne hadded
    apply reply_error_of_nothing_added c s id cursor flag hne
    have hjson := (run_entries c.to_json s cursor flag).1
    rw [hadded] at hjson
    rw [hjson]
    rfl
  refine ⟨?_, ⟨?_, ?_⟩, ?_⟩
  · intro h
    unfold GetToolsList
    rw [hresult h]
  · rintro ⟨body, hbody, hadded⟩
    by_contra hne
    rw [herror hne hadded] at hbody
    simp at hbody
  · intro h
    exact ⟨_, hresult h, by rw [hempty h]⟩
  · intro hne hadded
    refine ⟨by unfold GetToolsList; rw [herror hne hadded], ?_⟩
    have hrun := run_start c.to_json s cursor flag
    rcases scan_found c.to_json cursor flag (start_position s.tools_ cursor)
      "\x7b\"tools\":[" [] with ⟨hnext, _, _⟩ | ⟨pre, t, post, hR, hv, hnext, hadd, _⟩
    · left
      rw [hrun]
      exact hnext
    · right
      rw [← hrun] at hnext hadd
      rw [hadded] at hadd
      have hpre : ∀ q ∈ pre, visible flag q = false := by
        have hnil : pre.filter (visible flag) = [] := by simpa using hadd.symm
        intro q hq
        have := (List.filter_eq_nil_iff.mp hnil) q hq
        simpa using this
      refine ⟨pre, t, post, hR, hpre, hv, ?_, hnext⟩
      by_contra hfit
      rw [hR, scan_hidden c.to_json cursor flag _ _ _ pre hpre,
        scan_visible c.to_json cursor flag t post _ _ hv, if_neg hfit] at hrun
      obtain ⟨new, hnew, _, _⟩ := scan_entries c.to_json cursor flag post true
        ("\x7b\"tools\":[" ++ (c.to_json t ++ ",")) ([] ++ [t])
      rw [← hrun, hadded] at hnew
      simp at hnew

/-- C27 (witness): a registry holding only the user-only tool `self.screen.snapshot`, listed
without the flag: nothing is emitted, no tool was over the budget, and the reply is the error
with an empty tool name. -/
theorem GetToolsList_empty_page_witness :
    GetToolsList sample { tools_ := [snapshot] } 1 "" false =
      Outcome.reply { tools_ := [snapshot] }
        (Reply.error 1 "Failed to add tool  because of payload size limit") :=
  ((GetToolsList_empty_page sample { tools_ := [snapshot] } 1 "" false).2.2
    (by simp) rfl).1

/-- C28 (amended): a member of the arguments object whose key equals no schema property name,
compared without regard to the case of letters as `cJSON_GetObjectItem` compares, does not
count: with it or without it, and whatever key of that kind and value it has, the binder
yields the same property list and `DoToolCall` the same outcome. -/
theorem DoToolCall_ignores_unknown_member (c : Collaborators) (s : McpServer) (id : Int)
    (tool_name : String) (tool : McpTool) (l1 l2 : List (String × cJSON)) (k : String)
    (v : cJSON) (hfind : find_tool s tool_name = some tool)
    (hk : ∀ p ∈ tool.properties, case_insensitive_eq p.name k = false) :
    bind_arguments c.what (some (cJSON.object (l1 ++ (k, v) :: l2))) tool.properties =
      bind_arguments c.what (some (cJSON.object (l1 ++ l2))) tool.properties ∧
    DoToolCall c s id tool_name (some (cJSON.object (l1 ++ (k, v) :: l2))) =
      DoToolCall c s id tool_name (some (cJSON.object (l1 ++ l2))) ∧
    (∀ k1 v1, (∀ p ∈ tool.properties, case_insensitive_eq p.name k1 = false) →
      DoToolCall c s id tool_name (some (cJSON.object (l1 ++ (k1, v1) :: l2))) =
        DoToolCall c s id tool_name (some (cJSON.object (l1 ++ (k, v) :: l2)))) := by
  have hbind : ∀ k1 v1, (∀ p ∈ tool.properties, case_insensitive_eq p.name k1 = false) →
      bind_arguments c.what (some (cJSON.object (l1 ++ (k1, v1) :: l2))) tool.properties =
        bind_arguments c.what (some (cJSON.object (l1 ++ l2))) tool.properties := by
    intro k1 v1 hk1
    exact bind_arguments_congr c.what _ _ tool.properties
      (fun p hp => lookup_unmatched l1 l2 k1 v1 p.name (hk1 p hp))
  have hcall : ∀ k1 v1, (∀ p ∈ tool.properties, case_insensitive_eq p.name k1 = false) →
      DoToolCall c s id tool_name (some (cJSON.object (l1 ++ (k1, v1) :: l2))) =
        DoToolCall c s id tool_name (some (cJSON.object (l1 ++ l2))) := by
    intro k1 v1 hk1
    apply DoToolCall_congr
    intro tool1 hfind1
    rw [hfind] at hfind1
    rw [← Option.some.inj hfind1]
    exact hbind k1 v1 hk1
  exact ⟨hbind k v hk, hcall k v hk, fun k1 v1 hk1 => by rw [hcall k1 v1 hk1, hcall k v hk]⟩

/-- C28 (witness): `echo` called with `msg` and an extra member `volume`. -/
theorem DoToolCall_ignores_unknown_member_witness :
    DoToolCall sample registry 5 "echo"
        (some (cJSON.object ([("msg", cJSON.string "hi")] ++ ("volume", cJSON.number 3) :: []))) =
      DoToolCall sample registry 5 "echo"
        (some (cJSON.object ([("msg", cJSON.string "hi")] ++ []))) :=
  (DoToolCall_ignores_unknown_member sample registry 5 "echo" echo
    [("msg", cJSON.string "hi")] [] "volume" (cJSON.number 3) rfl (by decide)).2.1

/-- C28 (counterexample): the schema of `echo` names `msg` only.  With empty arguments the call
fails with `Missing valid argument: msg`; with the one member `MSG`, a name the schema does not
have, the lookup finds it, and the call is scheduled with `msg` bound to its value. -/
theorem DoToolCall_ignores_unknown_member_counterexample :
    (echo.properties.map (fun p => p.name)) = ["msg"] ∧ "MSG" ≠ "msg" ∧
    (DoToolCall sample registry 5 "echo" (some (cJSON.object []))).sent =
      [Reply.error 5 "Missing valid argument: msg"] ∧
    (DoToolCall sample registry 5 "echo"
      (some (cJSON.object [("MSG", cJSON.string "hi")]))).sent = [] ∧
    (DoToolCall sample registry 5 "echo"
      (some (cJSON.object [("MSG", cJSON.string "hi")]))).scheduled.map (fun w => w.arguments) =
      [[(Property.required "msg" PropertyType.kPropertyTypeString).set_value
        (Value.string "hi")]] := by
  decide

/-- C29: for an action in 1..4 and a hand in 1..3 the handler of `self.electron.hand_action`
queues the action id `3 * (action - 1) + hand`, the enumerator of that action and hand; the
id lies in 1..12, so `ActionTask` passes it to `HandAction`; different pairs get different
ids; the queued amount is the given one for action 1 and 0 otherwise. -/
theorem hand_action_id (action hand steps speed amount : Int)
    (ha : 1 ≤ action ∧ action ≤ 4) (hh : 1 ≤ hand ∧ hand ≤ 3) :
    (hand_action action hand steps speed amount).action_type = 3 * (action - 1) + hand ∧
    hand_enumerator action hand = some (3 * (action - 1) + hand) ∧
    1 ≤ 3 * (action - 1) + hand ∧ 3 * (action - 1) + hand ≤ 12 ∧
    (hand_action action hand steps speed amount).amount = (if action = 1 then amount else 0) ∧
    (hand_action action hand steps speed amount).steps = steps ∧
    (hand_action action hand steps speed amount).speed = speed ∧
    ActionTask (hand_action action hand steps speed amount) =
      Motion.HandAction (3 * (action - 1) + hand) steps (if action = 1 then amount else 0)
        speed ∧
    (∀ action1 hand1 : Int, 1 ≤ action1 ∧ action1 ≤ 4 → 1 ≤ hand1 ∧ hand1 ≤ 3 →
      3 * (action1 - 1) + hand1 = 3 * (action - 1) + hand → action1 = action ∧ hand1 = hand) := by
  have hcases : action = 1 ∨ action = 2 ∨ action = 3 ∨ action = 4 := by omega
  have hhand : hand = 1 ∨ hand = 2 ∨ hand = 3 := by omega
  have hid : (hand_action action hand steps speed amount).action_type =
      3 * (action - 1) + hand := by
    rcases hcases with h | h | h | h <;> subst h <;>
      simp [hand_action, ACTION_HAND_LEFT_UP, ACTION_HAND_LEFT_DOWN, ACTION_HAND_LEFT_WAVE,
        ACTION_HAND_LEFT_FLAP] <;> omega
  have hamount : (hand_action action hand steps speed amount).amount =
      (if action = 1 then amount else 0) := by
    rcases hcases with h | h | h | h <;> subst h <;> simp [hand_action]
  refine ⟨hid, ?_, by omega, by omega, hamount, rfl, rfl, ?_, ?_⟩
  · rcases hcases with h | h | h | h <;> rcases hhand with g | g | g <;> subst h <;> subst g <;>
      decide
  · unfold ActionTask
    rw [hid, hamount]
    have hlow : 3 * (action - 1) + hand ≥ ACTION_HAND_LEFT_UP := by
      unfold ACTION_HAND_LEFT_UP; omega
    have hhigh : 3 * (action - 1) + hand ≤ ACTION_HAND_BOTH_FLAP := by
      unfold ACTION_HAND_BOTH_FLAP; omega
    rw [if_pos ⟨hlow, hhigh⟩]
    rfl
  · intro action1 hand1 ha1 hh1 heq
    omega

/-- C29 (witness): slapping with both hands queues the action 12, `ACTION_HAND_BOTH_FLAP`,
with amount 0. -/
theorem hand_action_id_witness :
    hand_action 4 3 2 1000 30 =
      { action_type := 12, steps := 2, speed := 1000, direction := 0, amount := 0 } ∧
    ActionTask (hand_action 4 3 2 1000 30) = Motion.HandAction 12 2 0 1000 :=
  ⟨by decide, (hand_action_id 4 3 2 1000 30 (by decide) (by decide)).2.2.2.2.2.2.2.1⟩

/-- C30: for downloaded data of at least two bytes that does not begin with FF D8, a
successful capture means the data holds a first FF D8 pair at `s` and a last FF D9 pair
after it ending at `e`; the stored frame is the slice of the data from `s` up to `e`, it
begins with FF D8, ends with FF D9 and has between 4 and `data.length` bytes. A failed
capture leaves the stored frame as it was, and a capture of data without an FF D8 pair
followed by an FF D9 pair fails. -/
theorem Capture_extracts_jpeg (cam : RemoteCamera) (data : List Nat) (malloc_ok : Bool)
    (hlen : 2 ≤ data.length)
    (hhead : ¬ (data.getD 0 0 = 0xFF ∧ data.getD 1 0 = 0xD8)) :
    ((Capture.store cam data malloc_ok).1 = true →
      ∃ s e : Nat,
        pair_at data 0xFF 0xD8 s ∧ (∀ j, j < s → ¬ pair_at data 0xFF 0xD8 j) ∧
        s + 4 ≤ e ∧ e ≤ data.length ∧ pair_at data 0xFF 0xD9 (e - 2) ∧
        (∀ j, s ≤ j → pair_at data 0xFF 0xD9 j → j + 2 ≤ e) ∧
        (Capture.store cam data malloc_ok).2 =
          { frame_data_ := some ((data.drop s).take (e - s)), frame_len_ := e - s,
            frame_width_ := 320, frame_height_ := 240 } ∧
        ((data.drop s).take (e - s)).length = e - s ∧
        ((data.drop s).take (e - s)).getD 0 0 = 0xFF ∧
        ((data.drop s).take (e - s)).getD 1 0 = 0xD8 ∧
        ((data.drop s).take (e - s)).getD (e - s - 2) 0 = 0xFF ∧
        ((data.drop s).take (e - s)).getD (e - s - 1) 0 = 0xD9 ∧
        4 ≤ e - s ∧ e - s ≤ data.length) ∧
    ((Capture.store cam data malloc_ok).1 = false →
      (Capture.store cam data malloc_ok).2 = cam) ∧
    ((¬ ∃ s j : Nat, pair_at data 0xFF 0xD8 s ∧ s + 2 ≤ j ∧ pair_at data 0xFF 0xD9 j) →
      (Capture.store cam data malloc_ok) = (false, cam)) := by
  have hsmall : ¬ data.length < 2 := by omega
  have hsuccess : (Capture.store cam data malloc_ok).1 = true →
      ∃ s e : Nat,
        pair_at data 0xFF 0xD8 s ∧ (∀ j, j < s → ¬ pair_at data 0xFF 0xD8 j) ∧
        s + 4 ≤ e ∧ e ≤ data.length ∧ pair_at data 0xFF 0xD9 (e - 2) ∧
        (∀ j, s ≤ j → pair_at data 0xFF 0xD9 j → j + 2 ≤ e) ∧
        (Capture.store cam data malloc_ok).2 =
          { frame_data_ := some ((data.drop s).take (e - s)), frame_len_ := e - s,
            frame_width_ := 320, frame_height_ := 240 } := by
    unfold Capture.store
    simp only [if_neg hsmall, if_neg hhead]
    cases hs : Capture.find_start data (data.length - 1) 0 with
    | none => simp
    | some s =>
      dsimp only
      cases he : Capture.find_end data s (data.length - 1) with
      | none => simp
      | some e =>
        cases malloc_ok with
        | false => simp
        | true =>
          intro _
          obtain ⟨_, s2, s3, s4, s5⟩ := find_start_some data _ _ _ hs
          obtain ⟨e1, e2, e3, e4, e5⟩ := find_end_some data s _ _ he
          have hne : e ≠ s + 3 := by
            intro h
            rw [h] at e3
            have h1 : s + 3 - 2 = s + 1 := by omega
            rw [h1, s4] at e3
            exact absurd e3 (by decide)
          refine ⟨s, e, ⟨by omega, s3, s4⟩, ?_, by omega, by omega, ⟨by omega, e3, ?_⟩, ?_,
            by simp⟩
          · intro j hj hp
            exact s5 j (Nat.zero_le _) hj ⟨hp.2.1, hp.2.2⟩
          · have h1 : e - 2 + 1 = e - 1 := by omega
            rw [h1]
            exact e4
          · intro j hj hp
            by_contra hlt
            have h1 : j + 1 - 1 = j := by omega
            have hjs : j ≠ s := by
              intro h
              have h2 := hp.2.2
              rw [h, s4] at h2
              exact absurd h2 (by decide)
            have hjs1 : j ≠ s + 1 := by
              intro h
              have h2 := hp.2.1
              rw [h, s4] at h2
              exact absurd h2 (by decide)
            refine e5 (j + 1) (by omega) (by have := hp.1; omega) ?_
            rw [h1]
            exact ⟨hp.2.1, hp.2.2⟩
  refine ⟨?_, ?_, ?_⟩
  · intro h
    obtain ⟨s, e, h1, h2, h3, h4, h5, h6, h7⟩ := hsuccess h
    refine ⟨s, e, h1, h2, h3, h4, h5, h6, h7, length_slice data s e h4, ?_, ?_, ?_, ?_,
      by omega, by omega⟩
    · rw [getD_slice data s (e - s) 0 (by omega)]
      exact h1.2.1
    · rw [getD_slice data s (e - s) 1 (by omega)]
      exact h1.2.2
    · rw [getD_slice data s (e - s) (e - s - 2) (by omega)]
      have h8 : s + (e - s - 2) = e - 2 := by omega
      rw [h8]
      exact h5.2.1
    · rw [getD_slice data s (e - s) (e - s - 1) (by omega)]
      have h8 : s + (e - s - 1) = e - 2 + 1 := by omega
      rw [h8]
      exact h5.2.2
  · unfold Capture.store
    simp only [if_neg hsmall, if_neg hhead]
    cases Capture.find_start data (data.length - 1) 0 with
    | none => simp
    | some s =>
      dsimp only
      cases Capture.find_end data s (data.length - 1) with
      | none => simp
      | some e => cases malloc_ok <;> simp
  · intro hno
    have hfalse : (Capture.store cam data malloc_ok).1 = false := by
      cases hb : (Capture.store cam data malloc_ok).1 with
      | false => rfl
      | true =>
        obtain ⟨s, e, h1, _, h3, _, h5, _⟩ := hsuccess hb
        exact absurd ⟨s, e - 2, h1, by omega, h5⟩ hno
    have hcam : (Capture.store cam data malloc_ok).2 = cam := by
      revert hfalse
      unfold Capture.store
      simp only [if_neg hsmall, if_neg hhead]
      cases Capture.find_start data (data.length - 1) 0 with
      | none => simp
      | some s =>
        dsimp only
        cases Capture.find_end data s (data.length - 1) with
        | none => simp
        | some e => cases malloc_ok <;> simp
    exact Prod.ext hfalse hcam

/-- C30 (witness): a stream with a boundary byte before the image and a second FF D9
inside it: the stored frame runs from the first FF D8 through the last FF D9. -/
theorem Capture_extracts_jpeg_witness :
    (Capture.store ⟨none, 0, 0, 0⟩ [0, 0xFF, 0xD8, 1, 2, 0xFF, 0xD9, 7, 0xFF, 0xD9, 3]
        true).1 = true ∧
    (Capture.store ⟨none, 0, 0, 0⟩ [0, 0xFF, 0xD8, 1, 2, 0xFF, 0xD9, 7, 0xFF, 0xD9, 3]
        true).2 = ⟨some [0xFF, 0xD8, 1, 2, 0xFF, 0xD9, 7, 0xFF, 0xD9], 9, 320, 240⟩ ∧
    (Capture.store ⟨some [0xFF, 0xD8, 0xFF, 0xD9], 4, 320, 240⟩ [0, 0xFF, 0xD9, 0xFF, 0xD8]
        true).2 = ⟨some [0xFF, 0xD8, 0xFF, 0xD9], 4, 320, 240⟩ :=
  ⟨by decide, by decide,
    (Capture_extracts_jpeg ⟨some [0xFF, 0xD8, 0xFF, 0xD9], 4, 320, 240⟩
      [0, 0xFF, 0xD9, 0xFF, 0xD8] true (by decide) (by decide)).2.1 (by decide)⟩

end Mcp
